import Mathlib

/-!
Verification of the DJI-Mini2 SRT telemetry decoder (`main.go` of
droneMetrologyExporter) against its natural-language specification.

The Go source is shallowly embedded as follows.

* Byte strings and Go strings are modelled as `List Char` (the inputs are
  ASCII per the specification, so the byte/character distinction is
  immaterial); `b[3:]` becomes `List.drop 3` guarded by the slice bound
  check (Go panics when `len(b) < 3`, modelled as `Option.none`).
* `float64` values are modelled as exact rationals (`ℚ`): the decoder only
  ever stores the result of `strconv.ParseFloat` on short decimal literals,
  and no claim depends on binary rounding.  IEEE rounding, signed zeros and
  overflow to infinity are outside the model.  The trigonometry of the
  bearing computation is modelled over the reals (`ℝ`).
* `int` is modelled as `ℤ` together with the explicit int64 saturation that
  `strconv.Atoi` performs on range errors.
* The three `regexp` patterns of the source use only literal characters,
  one unescaped `.`, and capture groups of the form `([class]*)` or
  `([class]+)` in which every group is followed by a delimiter character
  outside its class (or by the end of the pattern).  For such patterns
  Go's leftmost-first submatch semantics coincides with deterministic
  maximal munch: a group must consume exactly the maximal run of its class
  characters, since any shorter run would leave a class character facing a
  delimiter that is not in the class.  The matcher below implements this
  and tries start positions left to right, which is exactly
  `FindStringSubmatch`.
* The pointer-valued builder `data *MetrologySample` and the slice of
  pointers `metrology` are modelled by an explicit heap: a function
  `cells : ℕ → MetrologySample` together with the index `cur` of the
  in-progress builder and the list `out` of appended cell indices.  A blank
  line (`data = &MetrologySample{}`) allocates a fresh cell by moving to
  index `cur + 1`, which is still in its zero state because cells beyond
  `cur` are never written.  The final `Metrology` value is `out.map cells`,
  which makes the pointer aliasing of consecutive data lines observable,
  exactly as in Go.
* The local `dataLen` of `parseSRT` always equals `len(metrology)` (both
  are updated only at the append), so the embedding uses `out.length`
  where the source reads `dataLen`.
-/

/-- Go strings / byte slices, modelled as lists of characters. -/
abbrev Str := List Char

/-- The character class `[0-9]` of the source regexes. -/
def goDigit (c : Char) : Bool := '0' ≤ c && c ≤ '9'

/-- The character class `[0-9:.,]` used by the time-range pattern `r2`. -/
def clsTime (c : Char) : Bool := goDigit c || c = ':' || c = '.' || c = ','

/-- The character class `[0-9.]` used by the data pattern `r3`. -/
def clsNum (c : Char) : Bool := goDigit c || c = '.'

/-- The character class `[0-9.-]` used by the data pattern `r3`. -/
def clsNumSigned (c : Char) : Bool := goDigit c || c = '.' || c = '-'

/-- One token of a source regex: a literal character, the unescaped `.`
(which matches any character, there being no newlines inside a line), a
capture group `([class]*)`, or a capture group `([class]+)`. -/
inductive Tok where
  | lit (c : Char)
  | any
  | grp (p : Char → Bool)
  | grpPlus (p : Char → Bool)

/-- Transcription helper: a run of literal characters of a pattern. -/
def lits (s : Str) : List Tok := s.map Tok.lit

/-- Match a token list against a prefix of `s`, returning the list of
captured groups and the unconsumed remainder.  Capture groups take the
maximal run of their class; per the modelling note above this equals Go's
leftmost-first semantics for the patterns embedded here, because each
group is followed by a delimiter outside its class or by the end of the
pattern. -/
def matchToksAt : List Tok → Str → Option (List Str × Str)
  | [], s => some ([], s)
  | Tok.lit _ :: _, [] => none
  | Tok.lit c :: ts, x :: s => if x = c then matchToksAt ts s else none
  | Tok.any :: _, [] => none
  | Tok.any :: ts, _ :: s => matchToksAt ts s
  | Tok.grp p :: ts, s =>
      match matchToksAt ts (s.dropWhile p) with
      | some (caps, rem) => some (s.takeWhile p :: caps, rem)
      | none => none
  | Tok.grpPlus p :: ts, s =>
      if (s.takeWhile p).isEmpty then none
      else
        match matchToksAt ts (s.dropWhile p) with
        | some (caps, rem) => some (s.takeWhile p :: caps, rem)
        | none => none

/-- `FindStringSubmatch` for an unanchored pattern: try each start
position from the left, and return the captured groups of the first
position at which the pattern matches. -/
def findMatch (ts : List Tok) : Str → Option (List Str)
  | [] =>
      match matchToksAt ts [] with
      | some (caps, _) => some caps
      | none => none
  | c :: s =>
      match matchToksAt ts (c :: s) with
      | some (caps, _) => some caps
      | none => findMatch ts s

/-- Token transcription of `r2 = "([0-9:.,]*) --> ([0-9:.,]*)"`. -/
def r2Toks : List Tok :=
  [Tok.grp clsTime] ++ lits " --> ".toList ++ [Tok.grp clsTime]

/-- Token transcription of
`r3 = "F/([0-9.]*), SS ([0-9.]*), ISO ([0-9.]*), EV ([0-9.-]*), DZOOM ([0-9.]*), GPS \\(([0-9.-]*), ([0-9.-]*), ([0-9.-]*)\\), D ([0-9.-]*)m, H ([0-9.-]*)m, H\\.S ([0-9.-]*)m/s. V\\.S ([0-9.-]*)m/s"`.
Note the unescaped `.` after the first `m/s`, which matches any
character. -/
def r3Toks : List Tok :=
  lits "F/".toList ++ ([Tok.grp clsNum] ++ (lits ", SS ".toList ++ ([Tok.grp clsNum] ++ (lits ", ISO ".toList ++ ([Tok.grp clsNum] ++ (lits ", EV ".toList ++ ([Tok.grp clsNumSigned] ++ (lits ", DZOOM ".toList ++ ([Tok.grp clsNum] ++ (lits ", GPS (".toList ++ ([Tok.grp clsNumSigned] ++ (lits ", ".toList ++ ([Tok.grp clsNumSigned] ++ (lits ", ".toList ++ ([Tok.grp clsNumSigned] ++ (lits "), D ".toList ++ ([Tok.grp clsNumSigned] ++ (lits "m, H ".toList ++ ([Tok.grp clsNumSigned] ++ (lits "m, H.S ".toList ++ ([Tok.grp clsNumSigned] ++ (lits "m/s".toList ++ ([Tok.any] ++ (lits " V.S ".toList ++ ([Tok.grp clsNumSigned] ++ lits "m/s".toList)))))))))))))))))))))))))

/-- Token transcription of the time pattern
`r1 = "([0-9]+):([0-9]+):([0-9]+):([0-9]+)"` of `parseSrtTime`. -/
def timeToks : List Tok :=
  [Tok.grpPlus goDigit, Tok.lit ':', Tok.grpPlus goDigit, Tok.lit ':',
   Tok.grpPlus goDigit, Tok.lit ':', Tok.grpPlus goDigit]

/-- Decimal value of a digit string. -/
def digitVal (s : Str) : ℕ :=
  s.foldl (fun a c => 10 * a + (c.toNat - '0'.toNat)) 0

/-- Split a string at every occurrence of the character `sep`, keeping
empty pieces: one piece more than there are separators.  Models both
`strings.Split(s, "\n")` and the decomposition of a decimal literal at
`.`. -/
def splitOnChar (sep : Char) : Str → List Str
  | [] => [[]]
  | c :: rest =>
      if c = sep then [] :: splitOnChar sep rest
      else
        match splitOnChar sep rest with
        | [] => [[c]]
        | r :: rs => (c :: r) :: rs

/-- The largest int64, the saturation bound of `strconv.Atoi`. -/
def maxInt64 : ℤ := 9223372036854775807

/-- Model of `strconv.Atoi` (= `ParseInt(s, 10, 64)`): an optional sign
followed by a nonempty digit string.  Returns the value and an ok flag
(the flag is the negation of Go's returned error).  On a syntax error the
returned value is 0; on a range error it is the saturated int64 bound, as
documented for `ParseInt`. -/
def goAtoi (s : Str) : ℤ × Bool :=
  match s with
  | c :: rest =>
      if c = '-' then
        if rest ≠ [] ∧ rest.all goDigit then
          if (digitVal rest : ℤ) > maxInt64 + 1 then (-(maxInt64 + 1), false)
          else (-(digitVal rest : ℤ), true)
        else (0, false)
      else if c = '+' then
        if rest ≠ [] ∧ rest.all goDigit then
          if (digitVal rest : ℤ) > maxInt64 then (maxInt64, false)
          else ((digitVal rest : ℤ), true)
        else (0, false)
      else
        if (c :: rest).all goDigit then
          if (digitVal (c :: rest) : ℤ) > maxInt64 then (maxInt64, false)
          else ((digitVal (c :: rest) : ℤ), true)
        else (0, false)
  | [] => (0, false)

/-- Value of an unsigned decimal literal: a digit string containing at
most one point and at least one digit.  `none` models a syntax error of
`strconv.ParseFloat`. -/
def decimalVal? (s : Str) : Option ℚ :=
  match splitOnChar '.' s with
  | [a] => if a ≠ [] ∧ a.all goDigit then some (digitVal a) else none
  | [a, b] =>
      if (a ++ b) ≠ [] ∧ a.all goDigit ∧ b.all goDigit then
        some ((digitVal a : ℚ) + (digitVal b : ℚ) / 10 ^ b.length)
      else none
  | _ => none

/-- Model of `strconv.ParseFloat` at the call sites of `parseSRT`, all of
which discard the error: an optional sign followed by an unsigned decimal
literal yields its exact value, and any other string yields the zero
value that Go returns alongside the discarded error.  The argument
strings are captures over the classes `[0-9.]` or `[0-9.-]`, so the
exponent, hexadecimal and inf/nan forms of `ParseFloat` cannot occur;
IEEE rounding and overflow to infinity are not modelled (`float64` is
modelled as `ℚ`). -/
def goParseFloat (s : Str) : ℚ :=
  match s with
  | c :: rest =>
      if c = '-' then
        match decimalVal? rest with | some v => -v | none => 0
      else if c = '+' then
        match decimalVal? rest with | some v => v | none => 0
      else
        match decimalVal? (c :: rest) with | some v => v | none => 0
  | [] => 0

/-- A `time.Time` value as the decoder can produce it: the zero value
`time.Time{}` of a fresh builder, a clock value
`time.Date(0, 1, 1, h, m, s, ms*1e6, time.UTC)` (identified by its signed
millisecond offset from the year-0 epoch, which is exactly how `Date`
normalizes out-of-range components), or the wall-clock value `time.Now()`
that `parseSrtTime` returns on failure.  A wall-clock reading taken while
the program runs is never the zero value nor a year-0 clock value, so the
three constructors are disjoint. -/
inductive GoTime where
  | zero
  | clock (ms : ℤ)
  | now
deriving DecidableEq, Repr

/-- Model of `makeTime`: `time.Date(0, 1, 1, h, m, s, ms*1000*1000,
time.UTC)`, i.e. the year-0 clock instant at millisecond offset
`((h*60 + m)*60 + s)*1000 + ms`.  The arithmetic is modelled unbounded;
the int64 wraparound of nanosecond arithmetic inside `time.Date` is out
of scope (it needs a millisecond field beyond 9.2e12). -/
def makeTime (h m s ms : ℤ) : GoTime :=
  GoTime.clock (((h * 60 + m) * 60 + s) * 1000 + ms)

/-- The normalization stage of `parseSrtTime`: replace `,` and `.` by
`:`, and append `":000"` when the colon count is exactly 2 (only three
groups present). -/
def normalizeSrtTime (t : Str) : Str :=
  let t1 := t.map fun c => if c = ',' then ':' else c
  let t2 := t1.map fun c => if c = '.' then ':' else c
  if t2.count ':' = 2 then t2 ++ ":000".toList else t2

/-- Model of `parseSrtTime`: normalize the separators, find the pattern
`([0-9]+):([0-9]+):([0-9]+):([0-9]+)` anywhere in the string, and convert
the four captures with `strconv.Atoi`, failing (with `time.Now()` as the
returned value) when the pattern does not match or any conversion
errors. -/
def parseSrtTime (t : Str) : GoTime × Bool :=
  match findMatch timeToks (normalizeSrtTime t) with
  | none => (GoTime.now, true)
  | some caps =>
      let h := goAtoi (caps.getD 0 [])
      let m := goAtoi (caps.getD 1 [])
      let s := goAtoi (caps.getD 2 [])
      let ms := goAtoi (caps.getD 3 [])
      if !h.2 then (GoTime.now, true)
      else if !m.2 then (GoTime.now, true)
      else if !s.2 then (GoTime.now, true)
      else if !ms.2 then (GoTime.now, true)
      else (makeTime h.1 m.1 s.1 ms.1, false)

/-- Model of `strings.Split(s, "\n")`: the newline-separated pieces, one
more piece than there are newlines, and `[""]` on the empty string. -/
def splitLines : Str → List Str := splitOnChar '\n'

/-- One telemetry record, the `MetrologySample` struct of the source.
`float64` fields are modelled as `ℚ` except `Bearing`, which is computed
by real trigonometry and is therefore modelled as `ℝ`. -/
structure MetrologySample where
  ID : ℤ
  Start : GoTime
  End : GoTime
  FStop : ℚ
  Shutter : ℚ
  ISO : ℤ
  EV : ℚ
  Zoom : ℤ
  Latitude : ℚ
  Longitude : ℚ
  Sources : ℤ
  Bearing : ℝ
  DTH : ℚ
  Altitude : ℚ
  HorizontalSpeed : ℚ
  VerticalSpeed : ℚ

/-- The Go zero value `MetrologySample{}` of a fresh builder. -/
instance : Inhabited MetrologySample :=
  ⟨0, GoTime.zero, GoTime.zero, 0, 0, 0, 0, 0, 0, 0, 0, 0, 0, 0, 0, 0⟩

/-- A physical point in geographic notation, the `Point` struct. -/
structure Point where
  lat : ℝ
  lng : ℝ

/-- Model of `math.Atan2` over the reals: the angle of the vector `(x, y)`
in `(-π, π]`, with `atan2 0 0 = 0` as in Go.  IEEE signed zeros and NaN
are outside the real-number model. -/
noncomputable def atan2 (y x : ℝ) : ℝ :=
  if 0 < x then Real.arctan (y / x)
  else if x < 0 then
    if 0 ≤ y then Real.arctan (y / x) + Real.pi
    else Real.arctan (y / x) - Real.pi
  else
    if 0 < y then Real.pi / 2
    else if y < 0 then -(Real.pi / 2)
    else 0

/-- Model of `BearingTo`: the initial-bearing formula of the source, in
degrees. -/
noncomputable def BearingTo (p1 p2 : Point) : ℝ :=
  let dLon := (p2.lng - p1.lng) * Real.pi / 180
  let lat1 := p1.lat * Real.pi / 180
  let lat2 := p2.lat * Real.pi / 180
  let y := Real.sin dLon * Real.cos lat2
  let x := Real.cos lat1 * Real.sin lat2 -
    Real.sin lat1 * Real.cos lat2 * Real.cos dLon
  atan2 y x * 180 / Real.pi

/-- The state of the `parseSRT` loop: the heap of builder cells, the index
`cur` of the in-progress builder `data`, and the list `out` of cell
indices appended to `metrology` so far (the slice of pointers).  The
source variable `dataLen` always equals `out.length`. -/
structure ParseState where
  cells : ℕ → MetrologySample
  cur : ℕ
  out : List ℕ

/-- The state at the top of `parseSRT`: one fresh zero builder, nothing
appended. -/
def initState : ParseState := ⟨fun _ => default, 0, []⟩

/-- The field decode of the data-line branch (source lines 126-137):
the twelve captures written into the builder.  `dataMatches[i]` of the
source is capture `i - 1` here, since Go's submatch slot 0 is the whole
match; both speed fields read capture index 10, as the source does. -/
def decodeFields (caps : List Str) (d : MetrologySample) :
    MetrologySample :=
  { d with
    FStop := goParseFloat (caps.getD 0 [])
    Shutter := goParseFloat (caps.getD 1 [])
    ISO := (goAtoi (caps.getD 2 [])).1
    EV := goParseFloat (caps.getD 3 [])
    Zoom := (goAtoi (caps.getD 4 [])).1
    Longitude := goParseFloat (caps.getD 5 [])
    Latitude := goParseFloat (caps.getD 6 [])
    Sources := (goAtoi (caps.getD 7 [])).1
    DTH := goParseFloat (caps.getD 8 [])
    Altitude := goParseFloat (caps.getD 9 [])
    HorizontalSpeed := goParseFloat (caps.getD 10 [])
    VerticalSpeed := goParseFloat (caps.getD 10 []) }

/-- The data-line branch of `parseSRT` (source lines 121-155): decode the
twelve captures into the builder, then, when `dataLen > 1`, compute the
bearing from the previously appended sample — read back through the
pointer slice after the decode — to the freshly decoded coordinates,
keeping the previous bearing when the computed one is exactly 0 or 180;
finally append the builder pointer. -/
noncomputable def dataStep (s : ParseState) (caps : List Str) : ParseState :=
  let n0 := decodeFields caps (s.cells s.cur)
  let cells1 := Function.update s.cells s.cur n0
  let n1 : MetrologySample :=
    if 1 < s.out.length then
      let prev := cells1 (s.out.getD (s.out.length - 1) 0)
      let bearing :=
        BearingTo ⟨(prev.Latitude : ℝ), (prev.Longitude : ℝ)⟩
          ⟨(n0.Latitude : ℝ), (n0.Longitude : ℝ)⟩
      if bearing = 0 ∨ bearing = 180 then { n0 with Bearing := prev.Bearing }
      else { n0 with Bearing := bearing }
    else n0
  { cells := Function.update s.cells s.cur n1, cur := s.cur,
    out := s.out ++ [s.cur] }

/-- One iteration of the line loop of `parseSRT`: a blank line allocates a
fresh builder (`data = &MetrologySample{}`; cells beyond `cur` have never
been written, so cell `cur + 1` is still the zero sample); otherwise the
three classifiers are tried in order.  `r1 = "^([0-9]*)$"` is anchored on
both sides, so it matches a non-blank line exactly when every character
is a digit, capturing the whole line. -/
noncomputable def parseLine (s : ParseState) (l : Str) : ParseState :=
  if l = [] then { s with cur := s.cur + 1 }
  else if l.all goDigit then
    { s with
      cells := Function.update s.cells s.cur
        { s.cells s.cur with ID := (goAtoi l).1 } }
  else
    match findMatch r2Toks l with
    | some caps =>
        { s with
          cells := Function.update s.cells s.cur
            { s.cells s.cur with
              Start := (parseSrtTime (caps.getD 0 [])).1
              End := (parseSrtTime (caps.getD 1 [])).1 } }
    | none =>
        match findMatch r3Toks l with
        | some caps => dataStep s caps
        | none => s

/-- The line loop of `parseSRT`. -/
noncomputable def runLines (s : ParseState) (ls : List Str) : ParseState :=
  ls.foldl parseLine s

/-- Model of `parseSRT`: strip the three marker bytes (`b[3:]` panics in
Go when the input is shorter, modelled as `none`), split the rest on
newlines, run the line loop, and read the appended samples back through
the pointer slice. -/
noncomputable def parseSRT (b : Str) : Option (List MetrologySample) :=
  if 3 ≤ b.length then
    let st := runLines initState (splitLines (b.drop 3))
    some (st.out.map st.cells)
  else none

example : goAtoi "44".toList = (44, true) := by decide
example : goAtoi "1.5".toList = (0, false) := by decide
example : decimalVal? "2.8".toList = some ((digitVal ['2'] : ℚ) +
    (digitVal ['8'] : ℚ) / 10 ^ 1) := by
  show (match splitOnChar '.' ['2', '.', '8'] with
    | [a] => if a ≠ [] ∧ a.all goDigit then some ((digitVal a : ℚ)) else none
    | [a, b] =>
        if (a ++ b) ≠ [] ∧ a.all goDigit ∧ b.all goDigit then
          some ((digitVal a : ℚ) + (digitVal b : ℚ) / 10 ^ b.length)
        else none
    | _ => none) = _
  rw [show splitOnChar '.' ['2', '.', '8'] = [['2'], ['8']] from by decide]
  simp
  decide
example : parseSrtTime "00:00:43,000".toList = (GoTime.clock 43000, false) := by decide
example : parseSrtTime "0:0:1".toList = (GoTime.clock 1000, false) := by decide
example : parseSrtTime "::".toList = (GoTime.now, true) := by decide
example : splitLines "a\nb".toList = ["a".toList, "b".toList] := by decide
example : findMatch r2Toks "00:00:43,000 --> 00:00:44,000".toList =
    some ["00:00:43,000".toList, "00:00:44,000".toList] := by decide

/-! ### Matcher lemmas

Lemmas characterizing `matchToksAt` and `findMatch` on strings assembled
from capture contents and the literal delimiters of the patterns. -/

lemma all_not_mem {p : Char → Bool} {l : Str} (h : l.all p = true) {c : Char}
    (hc : p c = false) : c ∉ l := by
  intro hmem
  have := List.all_eq_true.mp h c hmem
  rw [hc] at this
  exact Bool.false_ne_true this

lemma takeWhile_append_all (p : Char → Bool) {xs : Str} (ys : Str)
    (h : xs.all p = true) :
    (xs ++ ys).takeWhile p = xs ++ ys.takeWhile p := by
  induction xs with
  | nil => simp
  | cons c cs ih =>
      simp only [List.all_cons, Bool.and_eq_true] at h
      simp [List.takeWhile_cons, h.1, ih h.2]

lemma dropWhile_append_all (p : Char → Bool) {xs : Str} (ys : Str)
    (h : xs.all p = true) :
    (xs ++ ys).dropWhile p = ys.dropWhile p := by
  induction xs with
  | nil => simp
  | cons c cs ih =>
      simp only [List.all_cons, Bool.and_eq_true] at h
      simp [List.dropWhile_cons, h.1, ih h.2]

lemma dropWhile_eq_self_of_takeWhile_nil {p : Char → Bool} {l : Str}
    (h : l.takeWhile p = []) : l.dropWhile p = l := by
  cases l with
  | nil => rfl
  | cons c cs =>
      by_cases hc : p c
      · simp [List.takeWhile_cons, hc] at h
      · simp [List.dropWhile_cons, hc]

lemma matchToksAt_grp (p : Char → Bool) (ts : List Tok) {cap rest : Str}
    (hcap : cap.all p = true) (hrest : rest.takeWhile p = []) :
    matchToksAt (Tok.grp p :: ts) (cap ++ rest) =
      match matchToksAt ts rest with
      | some (caps, rem) => some (cap :: caps, rem)
      | none => none := by
  have ht : (cap ++ rest).takeWhile p = cap := by
    rw [takeWhile_append_all p rest hcap, hrest, List.append_nil]
  have hd : (cap ++ rest).dropWhile p = rest := by
    rw [dropWhile_append_all p rest hcap,
      dropWhile_eq_self_of_takeWhile_nil hrest]
  show (match matchToksAt ts ((cap ++ rest).dropWhile p) with
    | some (caps, rem) => some ((cap ++ rest).takeWhile p :: caps, rem)
    | none => none) = _
  rw [ht, hd]

lemma matchToksAt_grpPlus (p : Char → Bool) (ts : List Tok) {cap rest : Str}
    (hne : cap ≠ []) (hcap : cap.all p = true) (hrest : rest.takeWhile p = []) :
    matchToksAt (Tok.grpPlus p :: ts) (cap ++ rest) =
      match matchToksAt ts rest with
      | some (caps, rem) => some (cap :: caps, rem)
      | none => none := by
  have ht : (cap ++ rest).takeWhile p = cap := by
    rw [takeWhile_append_all p rest hcap, hrest, List.append_nil]
  have hd : (cap ++ rest).dropWhile p = rest := by
    rw [dropWhile_append_all p rest hcap,
      dropWhile_eq_self_of_takeWhile_nil hrest]
  show (if ((cap ++ rest).takeWhile p).isEmpty then none
    else match matchToksAt ts ((cap ++ rest).dropWhile p) with
      | some (caps, rem) => some ((cap ++ rest).takeWhile p :: caps, rem)
      | none => none) = _
  rw [ht, hd]
  have : cap.isEmpty = false := by
    cases cap with
    | nil => exact absurd rfl hne
    | cons c cs => rfl
  rw [this]
  simp

lemma matchToksAt_lits (cs : Str) (ts : List Tok) (s : Str) :
    matchToksAt (lits cs ++ ts) (cs ++ s) = matchToksAt ts s := by
  induction cs with
  | nil => simp [lits]
  | cons c cs ih => simpa [lits, matchToksAt] using ih

lemma findMatch_of_matchToksAt {ts : List Tok} {s : Str} {caps : List Str}
    {rem : Str} (h : matchToksAt ts s = some (caps, rem)) :
    findMatch ts s = some caps := by
  cases s <;> simp [findMatch, h]

lemma mem_of_mem_dropWhile {p : Char → Bool} {l : Str} {c : Char}
    (h : c ∈ l.dropWhile p) : c ∈ l := by
  induction l with
  | nil => simp at h
  | cons x xs ih =>
      by_cases hx : p x
      · simp only [List.dropWhile_cons, hx, if_true] at h
        exact List.mem_cons_of_mem x (ih h)
      · simpa [List.dropWhile_cons, hx] using h

lemma mem_of_matchToksAt_some {c : Char} :
    ∀ (ts : List Tok) (s : Str), (∃ r, matchToksAt ts s = some r) →
      Tok.lit c ∈ ts → c ∈ s
  | [], _, _, hc => by simp at hc
  | Tok.lit d :: ts, [], ⟨r, h⟩, _ => by simp [matchToksAt] at h
  | Tok.lit d :: ts, x :: s, ⟨r, h⟩, hc => by
      by_cases hx : x = d
      · subst hx
        simp only [matchToksAt, if_pos rfl] at h
        rcases List.mem_cons.mp hc with h1 | h1
        · cases h1
          exact List.mem_cons_self _ _
        · exact List.mem_cons_of_mem _
            (mem_of_matchToksAt_some ts s ⟨r, h⟩ h1)
      · simp [matchToksAt, hx] at h
  | Tok.any :: ts, [], ⟨r, h⟩, _ => by simp [matchToksAt] at h
  | Tok.any :: ts, x :: s, ⟨r, h⟩, hc => by
      simp only [matchToksAt] at h
      have hc' : Tok.lit c ∈ ts := by
        rcases List.mem_cons.mp hc with h1 | h1
        · cases h1
        · exact h1
      exact List.mem_cons_of_mem x (mem_of_matchToksAt_some ts s ⟨r, h⟩ hc')
  | Tok.grp p :: ts, s, ⟨r, h⟩, hc => by
      simp only [matchToksAt] at h
      have hc' : Tok.lit c ∈ ts := by
        rcases List.mem_cons.mp hc with h1 | h1
        · cases h1
        · exact h1
      cases hm : matchToksAt ts (s.dropWhile p) with
      | none => rw [hm] at h; cases h
      | some r2 =>
          exact mem_of_mem_dropWhile
            (mem_of_matchToksAt_some ts (s.dropWhile p) ⟨r2, hm⟩ hc')
  | Tok.grpPlus p :: ts, s, ⟨r, h⟩, hc => by
      simp only [matchToksAt] at h
      have hc' : Tok.lit c ∈ ts := by
        rcases List.mem_cons.mp hc with h1 | h1
        · cases h1
        · exact h1
      by_cases he : (s.takeWhile p).isEmpty
      · rw [if_pos he] at h; cases h
      · rw [if_neg he] at h
        cases hm : matchToksAt ts (s.dropWhile p) with
        | none => rw [hm] at h; cases h
        | some r2 =>
            exact mem_of_mem_dropWhile
              (mem_of_matchToksAt_some ts (s.dropWhile p) ⟨r2, hm⟩ hc')

lemma findMatch_eq_none_of_not_mem {c : Char} (ts : List Tok)
    (hc : Tok.lit c ∈ ts) : ∀ s : Str, c ∉ s → findMatch ts s = none := by
  intro s
  induction s with
  | nil =>
      intro hs
      cases hm : matchToksAt ts [] with
      | some r => exact absurd (mem_of_matchToksAt_some ts [] ⟨r, hm⟩ hc) hs
      | none => simp [findMatch, hm]
  | cons x s ih =>
      intro hs
      cases hm : matchToksAt ts (x :: s) with
      | some r =>
          exact absurd (mem_of_matchToksAt_some ts (x :: s) ⟨r, hm⟩ hc) hs
      | none =>
          simp only [findMatch, hm]
          exact ih fun h => hs (List.mem_cons_of_mem x h)

/-- Chain step: a run of pattern literals followed by a `([class]*)` group
whose capture is followed by text starting outside the class. -/
lemma chainLitsGrp (cs : Str) (p : Char → Bool) {ts : List Tok}
    {cap rest : Str} {caps : List Str} {rem : Str}
    (hcap : cap.all p = true) (hrest : rest.takeWhile p = [])
    (h : matchToksAt ts rest = some (caps, rem)) :
    matchToksAt (lits cs ++ ([Tok.grp p] ++ ts)) (cs ++ (cap ++ rest)) =
      some (cap :: caps, rem) := by
  induction cs with
  | nil =>
      have ht : (cap ++ rest).takeWhile p = cap := by
        rw [takeWhile_append_all p rest hcap, hrest, List.append_nil]
      have hd : (cap ++ rest).dropWhile p = rest := by
        rw [dropWhile_append_all p rest hcap,
          dropWhile_eq_self_of_takeWhile_nil hrest]
      show (match matchToksAt ts ((cap ++ rest).dropWhile p) with
        | some (caps, rem) => some ((cap ++ rest).takeWhile p :: caps, rem)
        | none => none) = _
      rw [ht, hd, h]
  | cons c cs ih => simpa [lits, matchToksAt] using ih

/-- Chain step for a `([class]+)` group: as `chainLitsGrp` but the capture
must be nonempty. -/
lemma chainLitsGrpPlus (cs : Str) (p : Char → Bool) {ts : List Tok}
    {cap rest : Str} {caps : List Str} {rem : Str} (hne : cap ≠ [])
    (hcap : cap.all p = true) (hrest : rest.takeWhile p = [])
    (h : matchToksAt ts rest = some (caps, rem)) :
    matchToksAt (lits cs ++ ([Tok.grpPlus p] ++ ts)) (cs ++ (cap ++ rest)) =
      some (cap :: caps, rem) := by
  induction cs with
  | nil =>
      have ht : (cap ++ rest).takeWhile p = cap := by
        rw [takeWhile_append_all p rest hcap, hrest, List.append_nil]
      have hd : (cap ++ rest).dropWhile p = rest := by
        rw [dropWhile_append_all p rest hcap,
          dropWhile_eq_self_of_takeWhile_nil hrest]
      show (if ((cap ++ rest).takeWhile p).isEmpty then none
        else match matchToksAt ts ((cap ++ rest).dropWhile p) with
          | some (caps, rem) => some ((cap ++ rest).takeWhile p :: caps, rem)
          | none => none) = _
      rw [ht, hd, h]
      cases cap with
      | nil => exact absurd rfl hne
      | cons c l => rfl
  | cons c cs ih => simpa [lits, matchToksAt] using ih

/-- Chain step: literals followed by the unescaped `.`, which consumes one
arbitrary character. -/
lemma chainLitsAny (cs : Str) {ts : List Tok} {d : Char} {tail : Str}
    {r : List Str × Str} (h : matchToksAt ts tail = some r) :
    matchToksAt (lits cs ++ ([Tok.any] ++ ts)) (cs ++ (d :: tail)) =
      some r := by
  induction cs with
  | nil => simpa [lits, matchToksAt] using h
  | cons c cs ih => simpa [lits, matchToksAt] using ih

/-- A pure literal run matches itself exactly. -/
lemma matchToksAt_lits_self (cs : Str) : matchToksAt (lits cs) cs =
    some ([], []) := by
  have := matchToksAt_lits cs [] []
  simpa using this

/-- The time-range shape of a subtitle file, `<t1> --> <t2>`. -/
def mkTimeLine (t1 t2 : Str) : Str := t1 ++ " --> ".toList ++ t2

/-- On a well-shaped time-range line whose tokens stay inside the class
`[0-9:.,]`, the pattern `r2` captures exactly the two tokens. -/
lemma r2_match_mkTimeLine {t1 t2 : Str} (h1 : t1.all clsTime = true)
    (h2 : t2.all clsTime = true) :
    findMatch r2Toks (mkTimeLine t1 t2) = some [t1, t2] := by
  have hchain :
      matchToksAt r2Toks (t1 ++ (" --> ".toList ++ (t2 ++ []))) =
        some ([t1, t2], []) := by
    refine chainLitsGrp [] clsTime h1
      (List.takeWhile_cons_of_neg (by decide)) ?_
    refine chainLitsGrp " --> ".toList clsTime h2 (by simp) rfl
  have := findMatch_of_matchToksAt hchain
  simpa [mkTimeLine] using this

/-- The data-line shape of the telemetry format, with the twelve numeric
fields as parameters.  The `[',']` between `m/s` and ` V.S ` is the
character consumed by the unescaped `.` of the pattern. -/
def mkDataLine (f1 f2 f3 f4 f5 f6 f7 f8 f9 f10 f11 f12 : Str) : Str :=
  "F/".toList ++ (f1 ++ (", SS ".toList ++ (f2 ++ (", ISO ".toList ++ (f3 ++ (", EV ".toList ++ (f4 ++ (", DZOOM ".toList ++ (f5 ++ (", GPS (".toList ++ (f6 ++ (", ".toList ++ (f7 ++ (", ".toList ++ (f8 ++ ("), D ".toList ++ (f9 ++ ("m, H ".toList ++ (f10 ++ ("m, H.S ".toList ++ (f11 ++ ("m/s".toList ++ (',' :: (" V.S ".toList ++ (f12 ++ "m/s".toList)))))))))))))))))))))))))

/-- On a well-shaped data line whose fields stay inside their classes, the
pattern `r3` captures exactly the twelve fields. -/
lemma r3_match_mkDataLine {f1 f2 f3 f4 f5 f6 f7 f8 f9 f10 f11 f12 : Str}
    (h1 : f1.all clsNum = true) (h2 : f2.all clsNum = true)
    (h3 : f3.all clsNum = true) (h4 : f4.all clsNumSigned = true)
    (h5 : f5.all clsNum = true) (h6 : f6.all clsNumSigned = true)
    (h7 : f7.all clsNumSigned = true) (h8 : f8.all clsNumSigned = true)
    (h9 : f9.all clsNumSigned = true) (h10 : f10.all clsNumSigned = true)
    (h11 : f11.all clsNumSigned = true) (h12 : f12.all clsNumSigned = true) :
    findMatch r3Toks (mkDataLine f1 f2 f3 f4 f5 f6 f7 f8 f9 f10 f11 f12) =
      some [f1, f2, f3, f4, f5, f6, f7, f8, f9, f10, f11, f12] := by
  refine @findMatch_of_matchToksAt _ _ _ [] ?_
  unfold r3Toks mkDataLine
  refine chainLitsGrp "F/".toList clsNum h1 ?_ ?_
  · exact List.takeWhile_cons_of_neg (by decide)
  refine chainLitsGrp ", SS ".toList clsNum h2 ?_ ?_
  · exact List.takeWhile_cons_of_neg (by decide)
  refine chainLitsGrp ", ISO ".toList clsNum h3 ?_ ?_
  · exact List.takeWhile_cons_of_neg (by decide)
  refine chainLitsGrp ", EV ".toList clsNumSigned h4 ?_ ?_
  · exact List.takeWhile_cons_of_neg (by decide)
  refine chainLitsGrp ", DZOOM ".toList clsNum h5 ?_ ?_
  · exact List.takeWhile_cons_of_neg (by decide)
  refine chainLitsGrp ", GPS (".toList clsNumSigned h6 ?_ ?_
  · exact List.takeWhile_cons_of_neg (by decide)
  refine chainLitsGrp ", ".toList clsNumSigned h7 ?_ ?_
  · exact List.takeWhile_cons_of_neg (by decide)
  refine chainLitsGrp ", ".toList clsNumSigned h8 ?_ ?_
  · exact List.takeWhile_cons_of_neg (by decide)
  refine chainLitsGrp "), D ".toList clsNumSigned h9 ?_ ?_
  · exact List.takeWhile_cons_of_neg (by decide)
  refine chainLitsGrp "m, H ".toList clsNumSigned h10 ?_ ?_
  · exact List.takeWhile_cons_of_neg (by decide)
  refine chainLitsGrp "m, H.S ".toList clsNumSigned h11 ?_ ?_
  · exact List.takeWhile_cons_of_neg (by decide)
  refine chainLitsAny "m/s".toList ?_
  refine chainLitsGrp " V.S ".toList clsNumSigned h12 ?_ ?_
  · exact by decide
  exact matchToksAt_lits_self "m/s".toList

/-- Chain step at the head of the time pattern: a `([0-9]+)` group whose
nonempty capture is followed by text starting outside the digits. -/
lemma chainGrpPlusCons (p : Char → Bool) {ts : List Tok} {cap rest : Str}
    {caps : List Str} {rem : Str} (hne : cap ≠ []) (hcap : cap.all p = true)
    (hrest : rest.takeWhile p = [])
    (h : matchToksAt ts rest = some (caps, rem)) :
    matchToksAt (Tok.grpPlus p :: ts) (cap ++ rest) =
      some (cap :: caps, rem) := by
  have := chainLitsGrpPlus [] p hne hcap hrest h
  simpa [lits] using this

/-- A literal token consumes its own character. -/
lemma matchToksAt_lit_cons (c : Char) (ts : List Tok) (s : Str) :
    matchToksAt (Tok.lit c :: ts) (c :: s) = matchToksAt ts s := by
  simp [matchToksAt]

/-- A four-group time token `g1:g2:g3:g4`. -/
def mkTimeTok4 (g1 g2 g3 g4 : Str) : Str :=
  g1 ++ (':' :: (g2 ++ (':' :: (g3 ++ (':' :: g4)))))

/-- On a four-group digit token, the time pattern captures the four
groups. -/
lemma time_match_mkTimeTok4 {g1 g2 g3 g4 : Str} (n1 : g1 ≠ []) (n2 : g2 ≠ [])
    (n3 : g3 ≠ []) (n4 : g4 ≠ []) (h1 : g1.all goDigit = true)
    (h2 : g2.all goDigit = true) (h3 : g3.all goDigit = true)
    (h4 : g4.all goDigit = true) :
    findMatch timeToks (mkTimeTok4 g1 g2 g3 g4) = some [g1, g2, g3, g4] := by
  have hchain : matchToksAt timeToks
      (g1 ++ (':' :: (g2 ++ (':' :: (g3 ++ (':' :: (g4 ++ []))))))) =
      some ([g1, g2, g3, g4], []) := by
    refine chainGrpPlusCons goDigit n1 h1
      (List.takeWhile_cons_of_neg (by decide)) ?_
    rw [matchToksAt_lit_cons]
    refine chainGrpPlusCons goDigit n2 h2
      (List.takeWhile_cons_of_neg (by decide)) ?_
    rw [matchToksAt_lit_cons]
    refine chainGrpPlusCons goDigit n3 h3
      (List.takeWhile_cons_of_neg (by decide)) ?_
    rw [matchToksAt_lit_cons]
    refine chainGrpPlusCons goDigit n4 h4 (by simp) rfl
  have := findMatch_of_matchToksAt hchain
  simpa [mkTimeTok4] using this

/-- A map that fixes every character of a string is the identity there. -/
lemma map_id_of_fixes {f : Char → Char} {l : Str} (h : ∀ c ∈ l, f c = c) :
    l.map f = l := by
  induction l with
  | nil => rfl
  | cons c cs ih =>
      simp only [List.map_cons, h c (List.mem_cons_self c cs)]
      rw [ih fun d hd => h d (List.mem_cons_of_mem c hd)]

/-- Digit strings contain no occurrence of a non-digit character. -/
lemma count_eq_zero_of_all_digit (c : Char) {l : Str}
    (h : l.all goDigit = true) (hc : goDigit c = false) : l.count c = 0 :=
  List.count_eq_zero.mpr (all_not_mem h hc)

/-- `strconv.Atoi` on a nonempty digit string within the int64 range
returns its decimal value without error. -/
lemma goAtoi_digits {g : Str} (hne : g ≠ []) (hg : g.all goDigit = true)
    (hbound : (digitVal g : ℤ) ≤ maxInt64) :
    goAtoi g = ((digitVal g : ℤ), true) := by
  cases g with
  | nil => exact absurd rfl hne
  | cons c rest =>
      have hc : goDigit c = true := by
        have := List.all_eq_true.mp hg c (List.mem_cons_self c rest)
        exact this
      have hcm : c ≠ '-' := by
        intro h
        rw [h] at hc
        exact Bool.false_ne_true hc
      have hcp : c ≠ '+' := by
        intro h
        rw [h] at hc
        exact Bool.false_ne_true hc
      show (if c = '-' then _ else if c = '+' then _ else
        if (c :: rest).all goDigit then
          if (digitVal (c :: rest) : ℤ) > maxInt64 then (maxInt64, false)
          else ((digitVal (c :: rest) : ℤ), true)
        else (0, false)) = _
      rw [if_neg hcm, if_neg hcp, if_pos hg, if_neg (not_lt.mpr hbound)]

lemma ne_of_goDigit {c d : Char} (h : goDigit c = true)
    (hd : goDigit d = false) : c ≠ d := by
  intro e
  rw [e, hd] at h
  exact Bool.false_ne_true h

lemma mem_mkTimeTok4 {g1 g2 g3 g4 : Str} {c : Char}
    (h : c ∈ mkTimeTok4 g1 g2 g3 g4) :
    c ∈ g1 ∨ c ∈ g2 ∨ c ∈ g3 ∨ c ∈ g4 ∨ c = ':' := by
  simp only [mkTimeTok4, List.mem_append, List.mem_cons] at h
  tauto

/-- The separator normalization of `parseSrtTime` leaves a token made of
digit groups and colons unchanged. -/
lemma normalize_mkTimeTok4 {g1 g2 g3 g4 : Str} (h1 : g1.all goDigit = true)
    (h2 : g2.all goDigit = true) (h3 : g3.all goDigit = true)
    (h4 : g4.all goDigit = true) (f : Char → Char)
    (hf : ∀ c, goDigit c = true → f c = c) (hcolon : f ':' = ':') :
    (mkTimeTok4 g1 g2 g3 g4).map f = mkTimeTok4 g1 g2 g3 g4 := by
  refine map_id_of_fixes fun c hc => ?_
  rcases mem_mkTimeTok4 hc with h | h | h | h | h
  · exact hf c (List.all_eq_true.mp h1 c h)
  · exact hf c (List.all_eq_true.mp h2 c h)
  · exact hf c (List.all_eq_true.mp h3 c h)
  · exact hf c (List.all_eq_true.mp h4 c h)
  · rw [h, hcolon]

lemma count_mkTimeTok4 {g1 g2 g3 g4 : Str} (h1 : g1.all goDigit = true)
    (h2 : g2.all goDigit = true) (h3 : g3.all goDigit = true)
    (h4 : g4.all goDigit = true) :
    (mkTimeTok4 g1 g2 g3 g4).count ':' = 3 := by
  simp [mkTimeTok4, List.count_append, List.count_cons,
    count_eq_zero_of_all_digit ':' h1 (by decide),
    count_eq_zero_of_all_digit ':' h2 (by decide),
    count_eq_zero_of_all_digit ':' h3 (by decide),
    count_eq_zero_of_all_digit ':' h4 (by decide)]

/-- `parseSrtTime` on a four-group digit token within the int64 range:
success, with the four decimal values sent to `makeTime`. -/
lemma parseSrtTime_mkTimeTok4 {g1 g2 g3 g4 : Str} (n1 : g1 ≠ [])
    (n2 : g2 ≠ []) (n3 : g3 ≠ []) (n4 : g4 ≠ [])
    (h1 : g1.all goDigit = true) (h2 : g2.all goDigit = true)
    (h3 : g3.all goDigit = true) (h4 : g4.all goDigit = true)
    (b1 : (digitVal g1 : ℤ) ≤ maxInt64) (b2 : (digitVal g2 : ℤ) ≤ maxInt64)
    (b3 : (digitVal g3 : ℤ) ≤ maxInt64) (b4 : (digitVal g4 : ℤ) ≤ maxInt64) :
    parseSrtTime (mkTimeTok4 g1 g2 g3 g4) =
      (makeTime (digitVal g1) (digitVal g2) (digitVal g3) (digitVal g4),
        false) := by
  have hm1 : (mkTimeTok4 g1 g2 g3 g4).map
      (fun c => if c = ',' then ':' else c) = mkTimeTok4 g1 g2 g3 g4 :=
    normalize_mkTimeTok4 h1 h2 h3 h4 _
      (fun c hc => if_neg (ne_of_goDigit hc (by decide))) (by decide)
  have hm2 : (mkTimeTok4 g1 g2 g3 g4).map
      (fun c => if c = '.' then ':' else c) = mkTimeTok4 g1 g2 g3 g4 :=
    normalize_mkTimeTok4 h1 h2 h3 h4 _
      (fun c hc => if_neg (ne_of_goDigit hc (by decide))) (by decide)
  unfold parseSrtTime normalizeSrtTime
  simp only [hm1, hm2, count_mkTimeTok4 h1 h2 h3 h4]
  rw [if_neg (by decide : ¬(3 = 2))]
  rw [time_match_mkTimeTok4 n1 n2 n3 n4 h1 h2 h3 h4]
  simp only [List.getD_cons_zero, List.getD_cons_succ]
  rw [goAtoi_digits n1 h1 b1, goAtoi_digits n2 h2 b2, goAtoi_digits n3 h3 b3,
    goAtoi_digits n4 h4 b4]
  simp

/-- A three-group time token `g1:g2:g3` (no milliseconds). -/
def mkTimeTok3 (g1 g2 g3 : Str) : Str := g1 ++ (':' :: (g2 ++ (':' :: g3)))

lemma mem_mkTimeTok3 {g1 g2 g3 : Str} {c : Char}
    (h : c ∈ mkTimeTok3 g1 g2 g3) : c ∈ g1 ∨ c ∈ g2 ∨ c ∈ g3 ∨ c = ':' := by
  simp only [mkTimeTok3, List.mem_append, List.mem_cons] at h
  tauto

lemma normalize_mkTimeTok3 {g1 g2 g3 : Str} (h1 : g1.all goDigit = true)
    (h2 : g2.all goDigit = true) (h3 : g3.all goDigit = true)
    (f : Char → Char) (hf : ∀ c, goDigit c = true → f c = c)
    (hcolon : f ':' = ':') :
    (mkTimeTok3 g1 g2 g3).map f = mkTimeTok3 g1 g2 g3 := by
  refine map_id_of_fixes fun c hc => ?_
  rcases mem_mkTimeTok3 hc with h | h | h | h
  · exact hf c (List.all_eq_true.mp h1 c h)
  · exact hf c (List.all_eq_true.mp h2 c h)
  · exact hf c (List.all_eq_true.mp h3 c h)
  · rw [h, hcolon]

lemma count_mkTimeTok3 {g1 g2 g3 : Str} (h1 : g1.all goDigit = true)
    (h2 : g2.all goDigit = true) (h3 : g3.all goDigit = true) :
    (mkTimeTok3 g1 g2 g3).count ':' = 2 := by
  simp [mkTimeTok3, List.count_append, List.count_cons,
    count_eq_zero_of_all_digit ':' h1 (by decide),
    count_eq_zero_of_all_digit ':' h2 (by decide),
    count_eq_zero_of_all_digit ':' h3 (by decide)]

/-- `parseSrtTime` on a three-group digit token within the int64 range:
the zero-millisecond group is appended and the parse succeeds with
milliseconds 0. -/
lemma parseSrtTime_mkTimeTok3 {g1 g2 g3 : Str} (n1 : g1 ≠ [])
    (n2 : g2 ≠ []) (n3 : g3 ≠ []) (h1 : g1.all goDigit = true)
    (h2 : g2.all goDigit = true) (h3 : g3.all goDigit = true)
    (b1 : (digitVal g1 : ℤ) ≤ maxInt64) (b2 : (digitVal g2 : ℤ) ≤ maxInt64)
    (b3 : (digitVal g3 : ℤ) ≤ maxInt64) :
    parseSrtTime (mkTimeTok3 g1 g2 g3) =
      (makeTime (digitVal g1) (digitVal g2) (digitVal g3) 0, false) := by
  have hm1 : (mkTimeTok3 g1 g2 g3).map
      (fun c => if c = ',' then ':' else c) = mkTimeTok3 g1 g2 g3 :=
    normalize_mkTimeTok3 h1 h2 h3 _
      (fun c hc => if_neg (ne_of_goDigit hc (by decide))) (by decide)
  have hm2 : (mkTimeTok3 g1 g2 g3).map
      (fun c => if c = '.' then ':' else c) = mkTimeTok3 g1 g2 g3 :=
    normalize_mkTimeTok3 h1 h2 h3 _
      (fun c hc => if_neg (ne_of_goDigit hc (by decide))) (by decide)
  have happ : mkTimeTok3 g1 g2 g3 ++ ":000".toList =
      mkTimeTok4 g1 g2 g3 "000".toList := by
    simp [mkTimeTok3, mkTimeTok4, List.append_assoc]
  unfold parseSrtTime normalizeSrtTime
  simp only [hm1, hm2, count_mkTimeTok3 h1 h2 h3]
  rw [if_pos trivial, happ]
  rw [time_match_mkTimeTok4 n1 n2 n3 (by decide) h1 h2 h3 (by decide)]
  simp only [List.getD_cons_zero, List.getD_cons_succ]
  rw [goAtoi_digits n1 h1 b1, goAtoi_digits n2 h2 b2, goAtoi_digits n3 h3 b3,
    goAtoi_digits (by decide) (by decide) (by decide)]
  simp [show digitVal ['0', '0', '0'] = 0 from by decide]

/-! ### Line classification

How `parseSRT` classifies each constructed line shape. -/

lemma parseLine_blank (s : ParseState) :
    parseLine s [] = { s with cur := s.cur + 1 } := by
  simp [parseLine]

lemma parseLine_idLine (s : ParseState) {l : Str} (hne : l ≠ [])
    (hdig : l.all goDigit = true) :
    parseLine s l = { s with
      cells := Function.update s.cells s.cur
        { s.cells s.cur with ID := (goAtoi l).1 } } := by
  rw [parseLine, if_neg hne, if_pos hdig]

/-- A constructed time-range line is nonempty and not all digits, so it
falls through to the `r2` classifier, which captures the two tokens. -/
lemma parseLine_timeLine (s : ParseState) {t1 t2 : Str}
    (h1 : t1.all clsTime = true) (h2 : t2.all clsTime = true) :
    parseLine s (mkTimeLine t1 t2) = { s with
      cells := Function.update s.cells s.cur
        { s.cells s.cur with
          Start := (parseSrtTime t1).1
          End := (parseSrtTime t2).1 } } := by
  have hne : mkTimeLine t1 t2 ≠ [] := by
    simp [mkTimeLine]
  have hdig : (mkTimeLine t1 t2).all goDigit = false := by
    simp only [mkTimeLine, List.all_append]
    rw [show (" --> ".toList.all goDigit) = false from by decide]
    simp
  rw [parseLine, if_neg hne, if_neg (by rw [hdig]; exact Bool.false_ne_true)]
  rw [r2_match_mkTimeLine h1 h2]
  simp

/-- The pattern `r2` requires a literal `>`, which no data line
contains. -/
lemma r2_no_match_mkDataLine {f1 f2 f3 f4 f5 f6 f7 f8 f9 f10 f11 f12 : Str}
    (h1 : f1.all clsNum = true) (h2 : f2.all clsNum = true)
    (h3 : f3.all clsNum = true) (h4 : f4.all clsNumSigned = true)
    (h5 : f5.all clsNum = true) (h6 : f6.all clsNumSigned = true)
    (h7 : f7.all clsNumSigned = true) (h8 : f8.all clsNumSigned = true)
    (h9 : f9.all clsNumSigned = true) (h10 : f10.all clsNumSigned = true)
    (h11 : f11.all clsNumSigned = true) (h12 : f12.all clsNumSigned = true) :
    findMatch r2Toks (mkDataLine f1 f2 f3 f4 f5 f6 f7 f8 f9 f10 f11 f12) =
      none := by
  have hmem : Tok.lit '>' ∈ r2Toks := by
    simp only [r2Toks, lits, List.mem_append]
    left
    right
    exact List.mem_map_of_mem Tok.lit (by decide)
  refine findMatch_eq_none_of_not_mem r2Toks hmem _ ?_
  intro hin
  have a1 : '>' ∉ f1 := all_not_mem h1 (by decide)
  have a2 : '>' ∉ f2 := all_not_mem h2 (by decide)
  have a3 : '>' ∉ f3 := all_not_mem h3 (by decide)
  have a4 : '>' ∉ f4 := all_not_mem h4 (by decide)
  have a5 : '>' ∉ f5 := all_not_mem h5 (by decide)
  have a6 : '>' ∉ f6 := all_not_mem h6 (by decide)
  have a7 : '>' ∉ f7 := all_not_mem h7 (by decide)
  have a8 : '>' ∉ f8 := all_not_mem h8 (by decide)
  have a9 : '>' ∉ f9 := all_not_mem h9 (by decide)
  have a10 : '>' ∉ f10 := all_not_mem h10 (by decide)
  have a11 : '>' ∉ f11 := all_not_mem h11 (by decide)
  have a12 : '>' ∉ f12 := all_not_mem h12 (by decide)
  simp only [mkDataLine, List.mem_append, List.mem_cons] at hin
  simp +decide at hin
  tauto

/-- A constructed data line is nonempty, not all digits, fails `r2`, and
matches `r3` with the twelve fields: `parseSRT` routes it to the decode
branch. -/
lemma parseLine_dataLine (s : ParseState)
    {f1 f2 f3 f4 f5 f6 f7 f8 f9 f10 f11 f12 : Str}
    (h1 : f1.all clsNum = true) (h2 : f2.all clsNum = true)
    (h3 : f3.all clsNum = true) (h4 : f4.all clsNumSigned = true)
    (h5 : f5.all clsNum = true) (h6 : f6.all clsNumSigned = true)
    (h7 : f7.all clsNumSigned = true) (h8 : f8.all clsNumSigned = true)
    (h9 : f9.all clsNumSigned = true) (h10 : f10.all clsNumSigned = true)
    (h11 : f11.all clsNumSigned = true) (h12 : f12.all clsNumSigned = true) :
    parseLine s (mkDataLine f1 f2 f3 f4 f5 f6 f7 f8 f9 f10 f11 f12) =
      dataStep s [f1, f2, f3, f4, f5, f6, f7, f8, f9, f10, f11, f12] := by
  have hne : mkDataLine f1 f2 f3 f4 f5 f6 f7 f8 f9 f10 f11 f12 ≠ [] := by
    simp [mkDataLine]
  have hdig : (mkDataLine f1 f2 f3 f4 f5 f6 f7 f8 f9 f10 f11 f12).all goDigit
      = false := by
    simp only [mkDataLine, List.all_append]
    rw [show ("F/".toList.all goDigit) = false from by decide]
    simp
  rw [parseLine, if_neg hne,
    if_neg (by rw [hdig]; exact Bool.false_ne_true)]
  rw [r2_no_match_mkDataLine h1 h2 h3 h4 h5 h6 h7 h8 h9 h10 h11 h12]
  rw [r3_match_mkDataLine h1 h2 h3 h4 h5 h6 h7 h8 h9 h10 h11 h12]

lemma dataStep_out (s : ParseState) (caps : List Str) :
    (dataStep s caps).out = s.out ++ [s.cur] := rfl

lemma dataStep_cur (s : ParseState) (caps : List Str) :
    (dataStep s caps).cur = s.cur := rfl

/-- After a data step the builder cell holds the decoded fields; only the
`Bearing` field may differ from the plain decode. -/
lemma dataStep_decoded (s : ParseState) (caps : List Str) :
    ∃ b : ℝ, (dataStep s caps).cells s.cur =
      { decodeFields caps (s.cells s.cur) with Bearing := b } := by
  show ∃ b, Function.update s.cells s.cur _ s.cur = _
  rw [Function.update_same]
  dsimp only
  split
  · split
    · exact ⟨_, rfl⟩
    · exact ⟨_, rfl⟩
  · exact ⟨_, rfl⟩

lemma runLines_nil (s : ParseState) : runLines s [] = s := rfl

lemma runLines_cons (s : ParseState) (l : Str) (ls : List Str) :
    runLines s (l :: ls) = runLines (parseLine s l) ls := rfl

/-- Exhaustive case analysis of one iteration of the line loop: a fresh
builder on a blank line, an id write, a time write, a data step, or no
change. -/
lemma parseLine_cases (s : ParseState) (l : Str) :
    parseLine s l = { s with cur := s.cur + 1 } ∨
    (∃ v, parseLine s l = { s with
      cells := Function.update s.cells s.cur
        { s.cells s.cur with ID := v } }) ∨
    (∃ t1 t2, parseLine s l = { s with
      cells := Function.update s.cells s.cur
        { s.cells s.cur with Start := t1, End := t2 } }) ∨
    (∃ caps, parseLine s l = dataStep s caps) ∨
    parseLine s l = s := by
  unfold parseLine
  by_cases hb : l = []
  · rw [if_pos hb]
    left
    rfl
  · rw [if_neg hb]
    by_cases hd : l.all goDigit
    · rw [if_pos hd]
      right; left
      exact ⟨_, rfl⟩
    · rw [if_neg hd]
      cases hm2 : findMatch r2Toks l with
      | some caps =>
          right; right; left
          exact ⟨_, _, rfl⟩
      | none =>
          cases hm3 : findMatch r3Toks l with
          | some caps =>
              right; right; right; left
              exact ⟨caps, rfl⟩
          | none =>
              right; right; right; right
              rfl

lemma dataStep_cells_ne (s : ParseState) (caps : List Str) {j : ℕ}
    (hj : j ≠ s.cur) : (dataStep s caps).cells j = s.cells j := by
  show Function.update s.cells s.cur _ j = _
  rw [Function.update_noteq hj]

/-- C1: for every input line matched by the data-line grammar, the parser
decodes the first captured GPS coordinate (the sixth capture overall,
written between `GPS (` and the first comma) into the sample's longitude
field and the second captured GPS coordinate into the latitude field, and
appends the builder to the output.  The line is presented through its
grammar shape `mkDataLine`, whose sixth field is the first GPS coordinate;
the appended sample is the builder cell `s.cur`, the index appended to
`out`. -/
theorem parse_data_line_gps_order (s : ParseState)
    {f1 f2 f3 f4 f5 f6 f7 f8 f9 f10 f11 f12 : Str}
    (h1 : f1.all clsNum = true) (h2 : f2.all clsNum = true)
    (h3 : f3.all clsNum = true) (h4 : f4.all clsNumSigned = true)
    (h5 : f5.all clsNum = true) (h6 : f6.all clsNumSigned = true)
    (h7 : f7.all clsNumSigned = true) (h8 : f8.all clsNumSigned = true)
    (h9 : f9.all clsNumSigned = true) (h10 : f10.all clsNumSigned = true)
    (h11 : f11.all clsNumSigned = true) (h12 : f12.all clsNumSigned = true) :
    ((parseLine s
        (mkDataLine f1 f2 f3 f4 f5 f6 f7 f8 f9 f10 f11 f12)).cells
          s.cur).Longitude = goParseFloat f6 ∧
    ((parseLine s
        (mkDataLine f1 f2 f3 f4 f5 f6 f7 f8 f9 f10 f11 f12)).cells
          s.cur).Latitude = goParseFloat f7 ∧
    (parseLine s (mkDataLine f1 f2 f3 f4 f5 f6 f7 f8 f9 f10 f11 f12)).out =
      s.out ++ [s.cur] := by
  rw [parseLine_dataLine s h1 h2 h3 h4 h5 h6 h7 h8 h9 h10 h11 h12]
  obtain ⟨b, hb⟩ := dataStep_decoded s
    [f1, f2, f3, f4, f5, f6, f7, f8, f9, f10, f11, f12]
  rw [hb]
  refine ⟨?_, ?_, dataStep_out s _⟩ <;> simp [decodeFields]

/-- Closed witness for C1 at the sample data line of the source header:
longitude receives the first GPS capture `-69.9191` and latitude the
second capture `46.8451`. -/
theorem parse_data_line_gps_order_witness :
    ((parseLine initState
        (mkDataLine "2.8".toList "141.87".toList "110".toList "-0.7".toList
          "1.000".toList "-69.9191".toList "46.8451".toList "19".toList
          "31.42".toList "11.80".toList "1.00".toList
          "0.70".toList)).cells initState.cur).Longitude =
      goParseFloat "-69.9191".toList ∧
    ((parseLine initState
        (mkDataLine "2.8".toList "141.87".toList "110".toList "-0.7".toList
          "1.000".toList "-69.9191".toList "46.8451".toList "19".toList
          "31.42".toList "11.80".toList "1.00".toList
          "0.70".toList)).cells initState.cur).Latitude =
      goParseFloat "46.8451".toList :=
  ⟨(parse_data_line_gps_order initState (by decide) (by decide) (by decide)
      (by decide) (by decide) (by decide) (by decide) (by decide) (by decide)
      (by decide) (by decide) (by decide)).1,
   (parse_data_line_gps_order initState (by decide) (by decide) (by decide)
      (by decide) (by decide) (by decide) (by decide) (by decide) (by decide)
      (by decide) (by decide) (by decide)).2.1⟩

/-- The equal-speeds property of every builder cell is preserved by each
line of the loop: the only write to the speed fields stores the same
eleventh capture in both. -/
lemma parseLine_preserves_speedEq (s : ParseState) (l : Str)
    (h : ∀ j, (s.cells j).VerticalSpeed = (s.cells j).HorizontalSpeed) :
    ∀ j, ((parseLine s l).cells j).VerticalSpeed =
      ((parseLine s l).cells j).HorizontalSpeed := by
  rcases parseLine_cases s l with hc | ⟨v, hc⟩ | ⟨t1, t2, hc⟩ | ⟨caps, hc⟩ | hc
    <;> rw [hc] <;> intro j
  · exact h j
  · rcases eq_or_ne j s.cur with he | he
    · rw [he]
      show (Function.update s.cells s.cur _ s.cur).VerticalSpeed =
        (Function.update s.cells s.cur _ s.cur).HorizontalSpeed
      rw [Function.update_same]
      exact h s.cur
    · show (Function.update s.cells s.cur _ j).VerticalSpeed =
        (Function.update s.cells s.cur _ j).HorizontalSpeed
      rw [Function.update_noteq he]
      exact h j
  · rcases eq_or_ne j s.cur with he | he
    · rw [he]
      show (Function.update s.cells s.cur _ s.cur).VerticalSpeed =
        (Function.update s.cells s.cur _ s.cur).HorizontalSpeed
      rw [Function.update_same]
      exact h s.cur
    · show (Function.update s.cells s.cur _ j).VerticalSpeed =
        (Function.update s.cells s.cur _ j).HorizontalSpeed
      rw [Function.update_noteq he]
      exact h j
  · rcases eq_or_ne j s.cur with he | he
    · rw [he]
      obtain ⟨b, hb⟩ := dataStep_decoded s caps
      rw [hb]
      rfl
    · rw [dataStep_cells_ne s caps he]
      exact h j
  · exact h j

lemma runLines_preserves_speedEq (ls : List Str) (s : ParseState)
    (h : ∀ j, (s.cells j).VerticalSpeed = (s.cells j).HorizontalSpeed) :
    ∀ j, ((runLines s ls).cells j).VerticalSpeed =
      ((runLines s ls).cells j).HorizontalSpeed := by
  induction ls generalizing s with
  | nil => exact h
  | cons l ls ih =>
      rw [runLines_cons]
      exact ih (parseLine s l) (parseLine_preserves_speedEq s l h)

/-- C2: every sample emitted by a successful parse has its verticalSpeed
field equal to its horizontalSpeed field, because the decoder stores the
same captured sub-field (the `H.S` capture, index 10) in both — and this
holds regardless of the `V.S` value written in the input line, as the
second conjunct states for an arbitrary twelfth field. -/
theorem verticalSpeed_duplicates_horizontalSpeed :
    (∀ (b : Str) (out : List MetrologySample), parseSRT b = some out →
      ∀ smp ∈ out, smp.VerticalSpeed = smp.HorizontalSpeed) ∧
    (∀ (s : ParseState) (caps : List Str),
      ((dataStep s caps).cells s.cur).VerticalSpeed =
        goParseFloat (caps.getD 10 []) ∧
      ((dataStep s caps).cells s.cur).HorizontalSpeed =
        goParseFloat (caps.getD 10 [])) := by
  constructor
  · intro b out h smp hsmp
    rw [parseSRT] at h
    by_cases hlen : 3 ≤ b.length
    · rw [if_pos hlen] at h
      have hout : out =
          (runLines initState (splitLines (b.drop 3))).out.map
            (runLines initState (splitLines (b.drop 3))).cells :=
        (Option.some.injEq _ _ ▸ h).symm
      subst hout
      obtain ⟨j, _, hj⟩ := List.mem_map.mp hsmp
      rw [← hj]
      exact runLines_preserves_speedEq _ initState (fun _ => rfl) j
    · rw [if_neg hlen] at h
      cases h
  · intro s caps
    obtain ⟨b, hb⟩ := dataStep_decoded s caps
    rw [hb]
    exact ⟨rfl, rfl⟩

/-- Closed witness for C2: a one-block input whose data line writes
`H.S 1.00` and `V.S 0.70`; every decoded sample nevertheless has equal
speed fields, and the decoded vertical speed is the `H.S` capture. -/
theorem verticalSpeed_duplicates_horizontalSpeed_witness :
    (∀ smp ∈ (parseSRT ("myz".toList ++
        mkDataLine "2.8".toList "141.87".toList "110".toList "-0.7".toList
          "1.000".toList "-69.9191".toList "46.8451".toList "19".toList
          "31.42".toList "11.80".toList "1.00".toList
          "0.70".toList)).getD [],
      smp.VerticalSpeed = smp.HorizontalSpeed) ∧
    ((dataStep initState
        ["2.8".toList, "141.87".toList, "110".toList, "-0.7".toList,
          "1.000".toList, "-69.9191".toList, "46.8451".toList, "19".toList,
          "31.42".toList, "11.80".toList, "1.00".toList,
          "0.70".toList]).cells
        initState.cur).VerticalSpeed = goParseFloat "1.00".toList := by
  constructor
  · intro smp hsmp
    have hlen : 3 ≤ ("myz".toList ++
        mkDataLine "2.8".toList "141.87".toList "110".toList "-0.7".toList
          "1.000".toList "-69.9191".toList "46.8451".toList "19".toList
          "31.42".toList "11.80".toList "1.00".toList
          "0.70".toList).length := by
      rw [List.length_append]
      have h3 : ("myz".toList).length = 3 := rfl
      omega
    obtain ⟨m, hm⟩ : ∃ m, parseSRT ("myz".toList ++
        mkDataLine "2.8".toList "141.87".toList "110".toList "-0.7".toList
          "1.000".toList "-69.9191".toList "46.8451".toList "19".toList
          "31.42".toList "11.80".toList "1.00".toList
          "0.70".toList) = some m := by
      rw [parseSRT, if_pos hlen]
      exact ⟨_, rfl⟩
    rw [hm] at hsmp
    exact verticalSpeed_duplicates_horizontalSpeed.1 _ m hm smp hsmp
  · rw [(verticalSpeed_duplicates_horizontalSpeed.2 initState
      ["2.8".toList, "141.87".toList, "110".toList, "-0.7".toList,
        "1.000".toList, "-69.9191".toList, "46.8451".toList, "19".toList,
        "31.42".toList, "11.80".toList, "1.00".toList, "0.70".toList]).1]
    rfl

/-- The modelled `math.Atan2` lands in `(-π, π]`. -/
lemma atan2_mem_Ioc (y x : ℝ) : atan2 y x ∈ Set.Ioc (-Real.pi) Real.pi := by
  have hπ := Real.pi_pos
  unfold atan2
  split_ifs with hx hx2 hy hy2 hy3
  · have h1 := Real.neg_pi_div_two_lt_arctan (y / x)
    have h2 := Real.arctan_lt_pi_div_two (y / x)
    constructor <;> [linarith; linarith]
  · have hle : y / x ≤ 0 := div_nonpos_of_nonneg_of_nonpos hy hx2.le
    have h1 := Real.neg_pi_div_two_lt_arctan (y / x)
    have h2 : Real.arctan (y / x) ≤ 0 := by
      have := Real.arctan_strictMono.monotone hle
      rwa [Real.arctan_zero] at this
    constructor <;> [linarith; linarith]
  · have hpos : 0 < y / x := div_pos_of_neg_of_neg (lt_of_not_ge hy) hx2
    have h1 : 0 < Real.arctan (y / x) := by
      have := Real.arctan_strictMono hpos
      rwa [Real.arctan_zero] at this
    have h2 := Real.arctan_lt_pi_div_two (y / x)
    constructor <;> [linarith; linarith]
  · constructor <;> [linarith; linarith]
  · constructor <;> [linarith; linarith]
  · constructor <;> [linarith; linarith]

/-- C9: the bearing calculator is a pure function of its two points (it is
a Lean function of the two points, with no state in the embedding); for
identical input points it returns exactly 0 (the formula degenerates to
`atan2 0 0`, which Go defines as 0); and its result always lies in
`(-180, 180]` degrees — no normalization to `[0, 360)` is applied. -/
theorem bearing_pure_range_degenerate :
    (∀ p : Point, BearingTo p p = 0) ∧
    (∀ p1 p2 : Point, BearingTo p1 p2 ∈ Set.Ioc (-180 : ℝ) 180) := by
  have hπ := Real.pi_pos
  constructor
  · intro p
    unfold BearingTo
    dsimp only
    have hd : (p.lng - p.lng) * Real.pi / 180 = 0 := by
      rw [sub_self, zero_mul, zero_div]
    rw [hd]
    have hy : Real.sin 0 * Real.cos (p.lat * Real.pi / 180) = 0 := by
      rw [Real.sin_zero, zero_mul]
    have hx : Real.cos (p.lat * Real.pi / 180) *
        Real.sin (p.lat * Real.pi / 180) -
        Real.sin (p.lat * Real.pi / 180) *
        Real.cos (p.lat * Real.pi / 180) * Real.cos 0 = 0 := by
      rw [Real.cos_zero]
      ring
    rw [hy, hx]
    have h0 : atan2 0 0 = 0 := by
      unfold atan2
      simp
    rw [h0, zero_mul, zero_div]
  · intro p1 p2
    obtain ⟨hlo, hhi⟩ := atan2_mem_Ioc
      (Real.sin ((p2.lng - p1.lng) * Real.pi / 180) *
        Real.cos (p2.lat * Real.pi / 180))
      (Real.cos (p1.lat * Real.pi / 180) * Real.sin (p2.lat * Real.pi / 180) -
        Real.sin (p1.lat * Real.pi / 180) * Real.cos (p2.lat * Real.pi / 180) *
        Real.cos ((p2.lng - p1.lng) * Real.pi / 180))
    unfold BearingTo
    dsimp only
    constructor
    · rw [lt_div_iff₀ hπ]
      nlinarith
    · rw [div_le_iff₀ hπ]
      nlinarith

/-- C4 counterexample: parsing the empty input (zero bytes) does not
return an empty sample sequence — the slice `b[3:]` is out of range for
any input shorter than three bytes, a Go panic, modelled as `none`. -/
theorem parse_empty_input_panics :
    parseSRT [] = none ∧ parseSRT [] ≠ some [] := by
  constructor
  · rw [parseSRT, if_neg (by decide)]
  · rw [parseSRT, if_neg (by decide)]
    exact Option.noConfusion

/-- C4 amended: the parse call fails exactly on inputs too short to strip
the three leading marker bytes — including the empty input; any input of
at least three bytes parses without failure, and the three marker bytes
alone (zero blocks) yield the empty sequence. -/
theorem parse_totality_amended :
    (∀ b : Str, 3 ≤ b.length → ∃ out, parseSRT b = some out) ∧
    (∀ c1 c2 c3 : Char, parseSRT [c1, c2, c3] = some []) ∧
    (∀ b : Str, b.length < 3 → parseSRT b = none) := by
  refine ⟨fun b h => ?_, fun c1 c2 c3 => ?_, fun b h => ?_⟩
  · rw [parseSRT, if_pos h]
    exact ⟨_, rfl⟩
  · rw [parseSRT, if_pos (by simp)]
    rfl
  · rw [parseSRT, if_neg (by omega)]

/-- Closed witness for the amended C4 at concrete inputs. -/
theorem parse_totality_amended_witness :
    (∃ out, parseSRT "xyz0".toList = some out) ∧
    parseSRT "xyz".toList = some [] ∧
    parseSRT "ab".toList = none :=
  ⟨parse_totality_amended.1 "xyz0".toList (by decide),
   parse_totality_amended.2.1 'x' 'y' 'z',
   parse_totality_amended.2.2 "ab".toList (by decide)⟩

/-- C7 counterexample: the twenty-digit hour token below does match four
colon-separated digit groups (it needs no normalization), yet
`parseSrtTime` fails on it, because `strconv.Atoi` overflows the 64-bit
range on the hour group.  So the time parser does not fail *exactly* when
the pattern fails to match. -/
theorem time_token_overflow_cex :
    (findMatch timeToks
      "99999999999999999999:00:00:000".toList).isSome = true ∧
    normalizeSrtTime "99999999999999999999:00:00:000".toList =
      "99999999999999999999:00:00:000".toList ∧
    (parseSrtTime "99999999999999999999:00:00:000".toList).2 = true := by
  refine ⟨by decide, by decide, by decide⟩

/-- C7 amended: after normalizing the separators (appending a
zero-millisecond group when the colon count is exactly 2), the parser
fails exactly when the four-digit-group pattern does not match anywhere
in the token, or when some matched digit group overflows the 64-bit
integer conversion; a well-formed `H:MM:SS` token with in-range values
parses successfully with milliseconds 0. -/
theorem parseSrtTime_fail_iff_amended :
    (∀ t : Str, (parseSrtTime t).2 = true ↔
      match findMatch timeToks (normalizeSrtTime t) with
      | none => True
      | some caps =>
          (goAtoi (caps.getD 0 [])).2 = false ∨
          (goAtoi (caps.getD 1 [])).2 = false ∨
          (goAtoi (caps.getD 2 [])).2 = false ∨
          (goAtoi (caps.getD 3 [])).2 = false) ∧
    (∀ g1 g2 g3 : Str, g1 ≠ [] → g2 ≠ [] → g3 ≠ [] →
      g1.all goDigit = true → g2.all goDigit = true → g3.all goDigit = true →
      (digitVal g1 : ℤ) ≤ maxInt64 → (digitVal g2 : ℤ) ≤ maxInt64 →
      (digitVal g3 : ℤ) ≤ maxInt64 →
      parseSrtTime (mkTimeTok3 g1 g2 g3) =
        (makeTime (digitVal g1) (digitVal g2) (digitVal g3) 0, false)) := by
  constructor
  · intro t
    unfold parseSrtTime
    cases hm : findMatch timeToks (normalizeSrtTime t) with
    | none => simp
    | some caps =>
        cases h1 : (goAtoi (caps.getD 0 [])).2 <;>
        cases h2 : (goAtoi (caps.getD 1 [])).2 <;>
        cases h3 : (goAtoi (caps.getD 2 [])).2 <;>
        cases h4 : (goAtoi (caps.getD 3 [])).2 <;>
        simp only [List.getD_eq_getElem?_getD] at h1 h2 h3 h4 <;>
          simp [h1, h2, h3, h4]
  · intro g1 g2 g3 n1 n2 n3 h1 h2 h3 b1 b2 b3
    exact parseSrtTime_mkTimeTok3 n1 n2 n3 h1 h2 h3 b1 b2 b3

/-- Closed witness for the amended C7: the malformed token `"::"` fails
and the regular token `"00:00:43"` parses to 43 seconds with zero
milliseconds. -/
theorem parseSrtTime_fail_iff_amended_witness :
    ((parseSrtTime "::".toList).2 = true ↔
      match findMatch timeToks (normalizeSrtTime "::".toList) with
      | none => True
      | some caps =>
          (goAtoi (caps.getD 0 [])).2 = false ∨
          (goAtoi (caps.getD 1 [])).2 = false ∨
          (goAtoi (caps.getD 2 [])).2 = false ∨
          (goAtoi (caps.getD 3 [])).2 = false) ∧
    parseSrtTime (mkTimeTok3 "00".toList "00".toList "43".toList) =
      (makeTime (digitVal "00".toList) (digitVal "00".toList)
        (digitVal "43".toList) 0, false) :=
  ⟨parseSrtTime_fail_iff_amended.1 "::".toList,
   parseSrtTime_fail_iff_amended.2 "00".toList "00".toList "43".toList
     (by decide) (by decide) (by decide) (by decide) (by decide) (by decide)
     (by decide) (by decide) (by decide)⟩

/-- On any failed conversion `strconv.Atoi` hands back zero (syntax
error) or the saturated int64 bound (range error); the parser stores that
value since it discards the error. -/
lemma goAtoi_fail_val {x : Str} (h : (goAtoi x).2 = false) :
    (goAtoi x).1 = 0 ∨ (goAtoi x).1 = maxInt64 ∨
    (goAtoi x).1 = -(maxInt64 + 1) := by
  unfold goAtoi at h ⊢
  cases x with
  | nil => left; rfl
  | cons c rest =>
      dsimp only at h ⊢
      split_ifs at h ⊢ <;> simp_all

/-- C6 counterexample: a matched data line whose ISO capture is a
twenty-digit number fails conversion, yet the emitted sample carries the
saturated int64 bound in `iso`, not zero — the silent-zero policy does
not hold for range errors. -/
theorem iso_saturation_cex :
    (goAtoi "99999999999999999999".toList).2 = false ∧
    ((parseLine initState
        (mkDataLine "2.8".toList "141.87".toList
          "99999999999999999999".toList "-0.7".toList "1.000".toList
          "-69.9191".toList "46.8451".toList "19".toList "31.42".toList
          "11.80".toList "1.00".toList "0.70".toList)).cells
        initState.cur).ISO = maxInt64 ∧
    maxInt64 ≠ 0 := by
  refine ⟨by decide, ?_, by decide⟩
  rw [parseLine_dataLine initState (by decide) (by decide) (by decide)
    (by decide) (by decide) (by decide) (by decide) (by decide) (by decide)
    (by decide) (by decide) (by decide)]
  obtain ⟨b, hb⟩ := dataStep_decoded initState
    ["2.8".toList, "141.87".toList, "99999999999999999999".toList,
      "-0.7".toList, "1.000".toList, "-69.9191".toList, "46.8451".toList,
      "19".toList, "31.42".toList, "11.80".toList, "1.00".toList,
      "0.70".toList]
  rw [hb]
  show (goAtoi ("99999999999999999999".toList)).1 = maxInt64
  decide

/-- The syntax acceptance of `strconv.Atoi` at these call sites: an
optional sign followed by a nonempty digit string, exactly the inputs on
which `goAtoi` does not take a `(0, false)` syntax-error branch.  A
failing conversion with this shape is a range error, without it a syntax
error. -/
def intShape (x : Str) : Bool :=
  match x with
  | c :: rest =>
      if c = '-' then decide (rest ≠ [] ∧ rest.all goDigit = true)
      else if c = '+' then decide (rest ≠ [] ∧ rest.all goDigit = true)
      else decide ((c :: rest).all goDigit = true)
  | [] => false

/-- The syntax acceptance of `strconv.ParseFloat` at these call sites: an
optional sign followed by a decimal literal, exactly the inputs on which
`goParseFloat` does not take a zero syntax-error branch. -/
def floatShape (x : Str) : Bool :=
  match x with
  | c :: rest =>
      if c = '-' then (decimalVal? rest).isSome
      else if c = '+' then (decimalVal? rest).isSome
      else (decimalVal? (c :: rest)).isSome
  | [] => false

/-- A string failing the integer syntax makes `strconv.Atoi` return
zero. -/
lemma goAtoi_syntax_zero {x : Str} (hs : intShape x = false) :
    (goAtoi x).1 = 0 := by
  cases x with
  | nil => rfl
  | cons c rest =>
      unfold intShape at hs
      unfold goAtoi
      dsimp only at hs ⊢
      by_cases hc1 : c = '-'
      · rw [if_pos hc1] at hs ⊢
        rw [if_neg (of_decide_eq_false hs)]
      · rw [if_neg hc1] at hs ⊢
        by_cases hc2 : c = '+'
        · rw [if_pos hc2] at hs ⊢
          rw [if_neg (of_decide_eq_false hs)]
        · rw [if_neg hc2] at hs ⊢
          rw [if_neg (of_decide_eq_false hs)]

/-- A well-shaped integer string on which `strconv.Atoi` still fails is a
range error, and the returned value is the saturated int64 bound of the
overflow direction. -/
lemma goAtoi_range_sat {x : Str} (h2 : (goAtoi x).2 = false)
    (hs : intShape x = true) :
    (goAtoi x).1 = maxInt64 ∨ (goAtoi x).1 = -(maxInt64 + 1) := by
  cases x with
  | nil => simp [intShape] at hs
  | cons c rest =>
      unfold intShape at hs
      unfold goAtoi at h2 ⊢
      dsimp only at h2 hs ⊢
      by_cases hc1 : c = '-'
      · rw [if_pos hc1] at h2 hs ⊢
        rw [if_pos (of_decide_eq_true hs)] at h2 ⊢
        by_cases hr : (digitVal rest : ℤ) > maxInt64 + 1
        · rw [if_pos hr]
          right
          rfl
        · rw [if_neg hr] at h2
          simp at h2
      · rw [if_neg hc1] at h2 hs ⊢
        by_cases hc2 : c = '+'
        · rw [if_pos hc2] at h2 hs ⊢
          rw [if_pos (of_decide_eq_true hs)] at h2 ⊢
          by_cases hr : (digitVal rest : ℤ) > maxInt64
          · rw [if_pos hr]
            left
            rfl
          · rw [if_neg hr] at h2
            simp at h2
        · rw [if_neg hc2] at h2 hs ⊢
          rw [if_pos (of_decide_eq_true hs)] at h2 ⊢
          by_cases hr : (digitVal (c :: rest) : ℤ) > maxInt64
          · rw [if_pos hr]
            left
            rfl
          · rw [if_neg hr] at h2
            simp at h2

/-- A string failing the float syntax makes the error-discarding
`strconv.ParseFloat` call sites store zero. -/
lemma goParseFloat_syntax_zero {x : Str} (hs : floatShape x = false) :
    goParseFloat x = 0 := by
  cases x with
  | nil => rfl
  | cons c rest =>
      unfold floatShape at hs
      unfold goParseFloat
      dsimp only at hs ⊢
      by_cases hc1 : c = '-'
      · rw [if_pos hc1] at hs ⊢
        cases hd : decimalVal? rest with
        | some v =>
            rw [hd] at hs
            simp at hs
        | none => rfl
      · rw [if_neg hc1] at hs ⊢
        by_cases hc2 : c = '+'
        · rw [if_pos hc2] at hs ⊢
          cases hd : decimalVal? rest with
          | some v =>
              rw [hd] at hs
              simp at hs
          | none => rfl
        · rw [if_neg hc2] at hs ⊢
          cases hd : decimalVal? (c :: rest) with
          | some v =>
              rw [hd] at hs
              simp at hs
          | none => rfl

/-- C6 amended: on every matched data line the sample is still emitted
and the rest of the parse is not aborted, whatever the captures contain;
every one of the twelve stored numeric sub-fields that fails conversion
for syntax is coerced to zero, while an integer sub-field that is
well-shaped yet fails conversion — its digits exceed the int64 range —
is saturated to the int64 bound instead of zero. -/
theorem malformed_field_amended (s : ParseState) (caps : List Str)
    (l : Str) (rest : List Str) (hl : parseLine s l = dataStep s caps) :
    (parseLine s l).out = s.out ++ [s.cur] ∧
    runLines s (l :: rest) = runLines (parseLine s l) rest ∧
    (floatShape (caps.getD 0 []) = false →
      ((parseLine s l).cells s.cur).FStop = 0) ∧
    (floatShape (caps.getD 1 []) = false →
      ((parseLine s l).cells s.cur).Shutter = 0) ∧
    (floatShape (caps.getD 3 []) = false →
      ((parseLine s l).cells s.cur).EV = 0) ∧
    (floatShape (caps.getD 5 []) = false →
      ((parseLine s l).cells s.cur).Longitude = 0) ∧
    (floatShape (caps.getD 6 []) = false →
      ((parseLine s l).cells s.cur).Latitude = 0) ∧
    (floatShape (caps.getD 8 []) = false →
      ((parseLine s l).cells s.cur).DTH = 0) ∧
    (floatShape (caps.getD 9 []) = false →
      ((parseLine s l).cells s.cur).Altitude = 0) ∧
    (floatShape (caps.getD 10 []) = false →
      ((parseLine s l).cells s.cur).HorizontalSpeed = 0 ∧
      ((parseLine s l).cells s.cur).VerticalSpeed = 0) ∧
    (intShape (caps.getD 2 []) = false →
      ((parseLine s l).cells s.cur).ISO = 0) ∧
    (intShape (caps.getD 4 []) = false →
      ((parseLine s l).cells s.cur).Zoom = 0) ∧
    (intShape (caps.getD 7 []) = false →
      ((parseLine s l).cells s.cur).Sources = 0) ∧
    ((goAtoi (caps.getD 2 [])).2 = false → intShape (caps.getD 2 []) = true →
      ((parseLine s l).cells s.cur).ISO = maxInt64 ∨
      ((parseLine s l).cells s.cur).ISO = -(maxInt64 + 1)) ∧
    ((goAtoi (caps.getD 4 [])).2 = false → intShape (caps.getD 4 []) = true →
      ((parseLine s l).cells s.cur).Zoom = maxInt64 ∨
      ((parseLine s l).cells s.cur).Zoom = -(maxInt64 + 1)) ∧
    ((goAtoi (caps.getD 7 [])).2 = false → intShape (caps.getD 7 []) = true →
      ((parseLine s l).cells s.cur).Sources = maxInt64 ∨
      ((parseLine s l).cells s.cur).Sources = -(maxInt64 + 1)) := by
  obtain ⟨b, hb⟩ := dataStep_decoded s caps
  refine ⟨by rw [hl]; exact dataStep_out s caps, runLines_cons s l rest,
    fun h => ?_,
    fun h => ?_, fun h => ?_, fun h => ?_, fun h => ?_, fun h => ?_,
    fun h => ?_, fun h => ⟨?_, ?_⟩, fun h => ?_, fun h => ?_, fun h => ?_,
    fun h2 h => ?_, fun h2 h => ?_, fun h2 h => ?_⟩
  · rw [hl, hb]
    show goParseFloat (caps.getD 0 []) = 0
    exact goParseFloat_syntax_zero h
  · rw [hl, hb]
    show goParseFloat (caps.getD 1 []) = 0
    exact goParseFloat_syntax_zero h
  · rw [hl, hb]
    show goParseFloat (caps.getD 3 []) = 0
    exact goParseFloat_syntax_zero h
  · rw [hl, hb]
    show goParseFloat (caps.getD 5 []) = 0
    exact goParseFloat_syntax_zero h
  · rw [hl, hb]
    show goParseFloat (caps.getD 6 []) = 0
    exact goParseFloat_syntax_zero h
  · rw [hl, hb]
    show goParseFloat (caps.getD 8 []) = 0
    exact goParseFloat_syntax_zero h
  · rw [hl, hb]
    show goParseFloat (caps.getD 9 []) = 0
    exact goParseFloat_syntax_zero h
  · rw [hl, hb]
    show goParseFloat (caps.getD 10 []) = 0
    exact goParseFloat_syntax_zero h
  · rw [hl, hb]
    show goParseFloat (caps.getD 10 []) = 0
    exact goParseFloat_syntax_zero h
  · rw [hl, hb]
    show (goAtoi (caps.getD 2 [])).1 = 0
    exact goAtoi_syntax_zero h
  · rw [hl, hb]
    show (goAtoi (caps.getD 4 [])).1 = 0
    exact goAtoi_syntax_zero h
  · rw [hl, hb]
    show (goAtoi (caps.getD 7 [])).1 = 0
    exact goAtoi_syntax_zero h
  · rw [hl, hb]
    show (goAtoi (caps.getD 2 [])).1 = maxInt64 ∨
      (goAtoi (caps.getD 2 [])).1 = -(maxInt64 + 1)
    exact goAtoi_range_sat h2 h
  · rw [hl, hb]
    show (goAtoi (caps.getD 4 [])).1 = maxInt64 ∨
      (goAtoi (caps.getD 4 [])).1 = -(maxInt64 + 1)
    exact goAtoi_range_sat h2 h
  · rw [hl, hb]
    show (goAtoi (caps.getD 7 [])).1 = maxInt64 ∨
      (goAtoi (caps.getD 7 [])).1 = -(maxInt64 + 1)
    exact goAtoi_range_sat h2 h

/-- Closed witness for the amended C6: a data line whose `F/` capture
`".."` fails float syntax and whose ISO capture `"110.5"` fails integer
syntax still emits its sample — with both fields coerced to zero — and
the parse continues. -/
theorem malformed_field_amended_witness :
    floatShape "..".toList = false ∧
    intShape "110.5".toList = false ∧
    (parseLine initState
      (mkDataLine "..".toList "141.87".toList "110.5".toList
        "-0.7".toList "1.000".toList "-69.9191".toList "46.8451".toList
        "19".toList "31.42".toList "11.80".toList "1.00".toList
        "0.70".toList)).out = initState.out ++ [initState.cur] ∧
    ((parseLine initState
      (mkDataLine "..".toList "141.87".toList "110.5".toList
        "-0.7".toList "1.000".toList "-69.9191".toList "46.8451".toList
        "19".toList "31.42".toList "11.80".toList "1.00".toList
        "0.70".toList)).cells initState.cur).FStop = 0 ∧
    ((parseLine initState
      (mkDataLine "..".toList "141.87".toList "110.5".toList
        "-0.7".toList "1.000".toList "-69.9191".toList "46.8451".toList
        "19".toList "31.42".toList "11.80".toList "1.00".toList
        "0.70".toList)).cells initState.cur).ISO = 0 := by
  obtain ⟨h1, h2, h3, h4, h5, h6, h7, h8, h9, h10, h11, h12, h13, h14,
    h15, h16⟩ :=
    malformed_field_amended initState
      ["..".toList, "141.87".toList, "110.5".toList, "-0.7".toList,
        "1.000".toList, "-69.9191".toList, "46.8451".toList, "19".toList,
        "31.42".toList, "11.80".toList, "1.00".toList, "0.70".toList] _ []
      (parseLine_dataLine initState (by decide) (by decide) (by decide)
        (by decide) (by decide) (by decide) (by decide) (by decide)
        (by decide) (by decide) (by decide) (by decide))
  exact ⟨by decide, by decide, h1, h3 (by decide), h11 (by decide)⟩

/-- When `parseSrtTime` reports an error, the value it returns alongside
the error — which the caller stores anyway — is `time.Now()`. -/
lemma parseSrtTime_err_val {t : Str} (h : (parseSrtTime t).2 = true) :
    (parseSrtTime t).1 = GoTime.now := by
  unfold parseSrtTime at h ⊢
  cases hm : findMatch timeToks (normalizeSrtTime t) with
  | none => rfl
  | some caps =>
      dsimp only at h ⊢
      split_ifs at h ⊢ <;> simp_all

/-- C8 counterexample: the time-range line `":: --> 00:00:01,000"`
matches the range pattern, its first token fails digit-group parsing, and
the in-progress sample's start field then holds the wall-clock value
`time.Now()` — not a zero-value time: the builder's start was the zero
value `time.Time{}` before the line and is the wall clock after it. -/
theorem time_error_stores_now_cex :
    (parseSrtTime "::".toList).2 = true ∧
    (initState.cells initState.cur).Start = GoTime.zero ∧
    ((parseLine initState
        (mkTimeLine "::".toList "00:00:01,000".toList)).cells
        initState.cur).Start = GoTime.now ∧
    GoTime.now ≠ GoTime.zero := by
  refine ⟨by decide, rfl, ?_, by decide⟩
  rw [parseLine_timeLine initState (by decide) (by decide)]
  show (Function.update initState.cells initState.cur _ initState.cur).Start
    = GoTime.now
  rw [Function.update_same]
  show (parseSrtTime "::".toList).1 = GoTime.now
  decide

/-- C8 amended: when a line matches the time-range pattern and a token
fails digit-group parsing, the parser stores the wall-clock value
`time.Now()` (not a zero-value time) in the in-progress sample's
start/end field, still assigns the other token's parse result, emits
nothing on this line, and continues with the rest of the parse. -/
theorem time_error_continue_amended (s : ParseState) {t1 t2 : Str}
    (rest : List Str) (h1 : t1.all clsTime = true)
    (h2 : t2.all clsTime = true) (herr : (parseSrtTime t1).2 = true) :
    ((parseLine s (mkTimeLine t1 t2)).cells s.cur).Start = GoTime.now ∧
    ((parseLine s (mkTimeLine t1 t2)).cells s.cur).End =
      (parseSrtTime t2).1 ∧
    (parseLine s (mkTimeLine t1 t2)).out = s.out ∧
    runLines s (mkTimeLine t1 t2 :: rest) =
      runLines (parseLine s (mkTimeLine t1 t2)) rest := by
  have hrl := runLines_cons s (mkTimeLine t1 t2) rest
  rw [parseLine_timeLine s h1 h2] at hrl ⊢
  refine ⟨?_, ?_, rfl, hrl⟩
  · show (Function.update s.cells s.cur _ s.cur).Start = GoTime.now
    rw [Function.update_same]
    exact parseSrtTime_err_val herr
  · show (Function.update s.cells s.cur _ s.cur).End = (parseSrtTime t2).1
    rw [Function.update_same]

/-- Closed witness for the amended C8 at the counterexample line. -/
theorem time_error_continue_amended_witness :
    ((parseLine initState
        (mkTimeLine "::".toList "00:00:01,000".toList)).cells
        initState.cur).Start = GoTime.now ∧
    ((parseLine initState
        (mkTimeLine "::".toList "00:00:01,000".toList)).cells
        initState.cur).End = (parseSrtTime "00:00:01,000".toList).1 ∧
    (parseLine initState
        (mkTimeLine "::".toList "00:00:01,000".toList)).out =
      initState.out ∧
    runLines initState (mkTimeLine "::".toList "00:00:01,000".toList :: []) =
      runLines (parseLine initState
        (mkTimeLine "::".toList "00:00:01,000".toList)) [] :=
  time_error_continue_amended initState [] (by decide) (by decide)
    (by decide)

lemma splitOnChar_not_mem {sep : Char} {l : Str} (h : sep ∉ l) :
    splitOnChar sep l = [l] := by
  induction l with
  | nil => rfl
  | cons c cs ih =>
      have hc : c ≠ sep := fun e => h (e ▸ List.mem_cons_self c cs)
      have hcs : sep ∉ cs := fun e => h (List.mem_cons_of_mem c e)
      rw [splitOnChar, if_neg hc, ih hcs]

lemma splitOnChar_append_cons {sep : Char} {l : Str} (h : sep ∉ l)
    (rest : Str) :
    splitOnChar sep (l ++ sep :: rest) = l :: splitOnChar sep rest := by
  induction l with
  | nil =>
      show splitOnChar sep (sep :: rest) = [] :: splitOnChar sep rest
      rw [splitOnChar, if_pos rfl]
  | cons c cs ih =>
      have hc : c ≠ sep := fun e => h (e ▸ List.mem_cons_self c cs)
      have hcs : sep ∉ cs := fun e => h (List.mem_cons_of_mem c e)
      show splitOnChar sep (c :: (cs ++ sep :: rest)) = _
      rw [splitOnChar, if_neg hc, ih hcs]

lemma newline_not_mem_mkTimeLine {t1 t2 : Str} (h1 : t1.all clsTime = true)
    (h2 : t2.all clsTime = true) : '\n' ∉ mkTimeLine t1 t2 := by
  intro h
  simp only [mkTimeLine, List.mem_append] at h
  rcases h with (h | h) | h
  · exact absurd h (all_not_mem h1 (by decide))
  · exact absurd h (by decide)
  · exact absurd h (all_not_mem h2 (by decide))

lemma newline_not_mem_mkDataLine {f1 f2 f3 f4 f5 f6 f7 f8 f9 f10 f11 f12 : Str}
    (h1 : f1.all clsNum = true) (h2 : f2.all clsNum = true)
    (h3 : f3.all clsNum = true) (h4 : f4.all clsNumSigned = true)
    (h5 : f5.all clsNum = true) (h6 : f6.all clsNumSigned = true)
    (h7 : f7.all clsNumSigned = true) (h8 : f8.all clsNumSigned = true)
    (h9 : f9.all clsNumSigned = true) (h10 : f10.all clsNumSigned = true)
    (h11 : f11.all clsNumSigned = true) (h12 : f12.all clsNumSigned = true) :
    '\n' ∉ mkDataLine f1 f2 f3 f4 f5 f6 f7 f8 f9 f10 f11 f12 := by
  intro hin
  have a1 : '\n' ∉ f1 := all_not_mem h1 (by decide)
  have a2 : '\n' ∉ f2 := all_not_mem h2 (by decide)
  have a3 : '\n' ∉ f3 := all_not_mem h3 (by decide)
  have a4 : '\n' ∉ f4 := all_not_mem h4 (by decide)
  have a5 : '\n' ∉ f5 := all_not_mem h5 (by decide)
  have a6 : '\n' ∉ f6 := all_not_mem h6 (by decide)
  have a7 : '\n' ∉ f7 := all_not_mem h7 (by decide)
  have a8 : '\n' ∉ f8 := all_not_mem h8 (by decide)
  have a9 : '\n' ∉ f9 := all_not_mem h9 (by decide)
  have a10 : '\n' ∉ f10 := all_not_mem h10 (by decide)
  have a11 : '\n' ∉ f11 := all_not_mem h11 (by decide)
  have a12 : '\n' ∉ f12 := all_not_mem h12 (by decide)
  simp only [mkDataLine, List.mem_append, List.mem_cons] at hin
  simp +decide at hin
  tauto

/-- C5: an input consisting of the three marker bytes and one well-formed
3-line block — an all-digit index line, a time-range line, and a data
line — parses to exactly one sample whose fields are the decoded literal
values of the block: the index value, the two parsed times, the twelve
decoded numeric fields, and bearing 0 (never computed for the first
sample). -/
theorem single_block_parse (m1 m2 m3 : Char) {idStr t1 t2 : Str}
    {f1 f2 f3 f4 f5 f6 f7 f8 f9 f10 f11 f12 : Str}
    (hid1 : idStr ≠ []) (hid2 : idStr.all goDigit = true)
    (ht1 : t1.all clsTime = true) (ht2 : t2.all clsTime = true)
    (h1 : f1.all clsNum = true) (h2 : f2.all clsNum = true)
    (h3 : f3.all clsNum = true) (h4 : f4.all clsNumSigned = true)
    (h5 : f5.all clsNum = true) (h6 : f6.all clsNumSigned = true)
    (h7 : f7.all clsNumSigned = true) (h8 : f8.all clsNumSigned = true)
    (h9 : f9.all clsNumSigned = true) (h10 : f10.all clsNumSigned = true)
    (h11 : f11.all clsNumSigned = true) (h12 : f12.all clsNumSigned = true) :
    parseSRT ([m1, m2, m3] ++ (idStr ++ ('\n' ::
        (mkTimeLine t1 t2 ++ ('\n' ::
          mkDataLine f1 f2 f3 f4 f5 f6 f7 f8 f9 f10 f11 f12))))) =
      some [{ ID := (goAtoi idStr).1
              Start := (parseSrtTime t1).1
              End := (parseSrtTime t2).1
              FStop := goParseFloat f1
              Shutter := goParseFloat f2
              ISO := (goAtoi f3).1
              EV := goParseFloat f4
              Zoom := (goAtoi f5).1
              Latitude := goParseFloat f7
              Longitude := goParseFloat f6
              Sources := (goAtoi f8).1
              Bearing := 0
              DTH := goParseFloat f9
              Altitude := goParseFloat f10
              HorizontalSpeed := goParseFloat f11
              VerticalSpeed := goParseFloat f11 }] := by
  have hnid : '\n' ∉ idStr := all_not_mem hid2 (by decide)
  have hnt := newline_not_mem_mkTimeLine ht1 ht2
  have hnd := newline_not_mem_mkDataLine h1 h2 h3 h4 h5 h6 h7 h8 h9 h10
    h11 h12
  rw [parseSRT, if_pos (by simp)]
  rw [show (3 : ℕ) = ([m1, m2, m3] : Str).length from rfl, List.drop_left]
  simp only [splitLines]
  rw [splitOnChar_append_cons hnid, splitOnChar_append_cons hnt,
    splitOnChar_not_mem hnd]
  rw [show runLines initState [idStr, mkTimeLine t1 t2,
      mkDataLine f1 f2 f3 f4 f5 f6 f7 f8 f9 f10 f11 f12] =
    parseLine (parseLine (parseLine initState idStr) (mkTimeLine t1 t2))
      (mkDataLine f1 f2 f3 f4 f5 f6 f7 f8 f9 f10 f11 f12) from rfl]
  rw [parseLine_idLine initState hid1 hid2]
  rw [parseLine_timeLine _ ht1 ht2]
  rw [parseLine_dataLine _ h1 h2 h3 h4 h5 h6 h7 h8 h9 h10 h11 h12]
  simp [dataStep, decodeFields, initState, Function.update_same]
  rfl

/-- Closed witness for C5, the concrete block of the claim: index line
`"44"`, time-range `"00:00:43,000 --> 00:00:44,000"`, and the sample data
line of the source header; the parse yields one sample with `id` 44,
`start` at 43.000 seconds of day and `end` at 44.000 seconds of day (and,
incidentally, `zoom` 0 since `Atoi("1.000")` fails). -/
theorem single_block_parse_witness :
    parseSRT (['x', 'y', 'z'] ++ ("44".toList ++ ('\n' ::
        (mkTimeLine "00:00:43,000".toList "00:00:44,000".toList ++ ('\n' ::
          mkDataLine "2.8".toList "141.87".toList "110".toList "-0.7".toList
            "1.000".toList "-69.9191".toList "46.8451".toList "19".toList
            "31.42".toList "11.80".toList "1.00".toList
            "0.70".toList))))) =
      some [{ ID := 44
              Start := GoTime.clock 43000
              End := GoTime.clock 44000
              FStop := goParseFloat "2.8".toList
              Shutter := goParseFloat "141.87".toList
              ISO := 110
              EV := goParseFloat "-0.7".toList
              Zoom := 0
              Latitude := goParseFloat "46.8451".toList
              Longitude := goParseFloat "-69.9191".toList
              Sources := 19
              Bearing := 0
              DTH := goParseFloat "31.42".toList
              Altitude := goParseFloat "11.80".toList
              HorizontalSpeed := goParseFloat "1.00".toList
              VerticalSpeed := goParseFloat "1.00".toList }] := by
  have h := @single_block_parse 'x' 'y' 'z' "44".toList
    "00:00:43,000".toList "00:00:44,000".toList "2.8".toList
    "141.87".toList "110".toList "-0.7".toList "1.000".toList
    "-69.9191".toList "46.8451".toList "19".toList "31.42".toList
    "11.80".toList "1.00".toList "0.70".toList (by decide) (by decide)
    (by decide) (by decide) (by decide) (by decide) (by decide) (by decide)
    (by decide) (by decide) (by decide) (by decide) (by decide) (by decide)
    (by decide) (by decide)
  rw [show (goAtoi "44".toList).1 = 44 from by decide,
    show (parseSrtTime "00:00:43,000".toList).1 = GoTime.clock 43000 from
      by decide,
    show (parseSrtTime "00:00:44,000".toList).1 = GoTime.clock 44000 from
      by decide,
    show (goAtoi "110".toList).1 = 110 from by decide,
    show (goAtoi "1.000".toList).1 = 0 from by decide,
    show (goAtoi "19".toList).1 = 19 from by decide] at h
  exact h

/-- A non-blank line that fails the data pattern never appends to the
output and never allocates a new builder, whatever else it writes. -/
lemma parseLine_no_append {l : Str} (hne : l ≠ [])
    (hnd : findMatch r3Toks l = none) (s : ParseState) :
    (parseLine s l).out = s.out ∧ (parseLine s l).cur = s.cur := by
  unfold parseLine
  rw [if_neg hne]
  by_cases hd : l.all goDigit
  · rw [if_pos hd]
    exact ⟨rfl, rfl⟩
  · rw [if_neg hd]
    cases hm2 : findMatch r2Toks l with
    | some caps => exact ⟨rfl, rfl⟩
    | none =>
        rw [hnd]
        exact ⟨rfl, rfl⟩

lemma runLines_no_append {ms : List Str}
    (hms : ∀ m ∈ ms, m ≠ [] ∧ findMatch r3Toks m = none) (u : ParseState) :
    (runLines u ms).out = u.out ∧ (runLines u ms).cur = u.cur := by
  induction ms generalizing u with
  | nil => exact ⟨rfl, rfl⟩
  | cons m ms ih =>
      obtain ⟨hne, hnd⟩ := hms m (List.mem_cons_self m ms)
      obtain ⟨ho, hc⟩ := parseLine_no_append hne hnd u
      rw [runLines_cons]
      obtain ⟨ho2, hc2⟩ := ih (fun m hm => hms m (List.mem_cons_of_mem _ hm))
        (parseLine u m)
      exact ⟨ho2.trans ho, hc2.trans hc⟩

/-- C10: when two data lines are processed with no blank line between
them (any non-blank, non-data lines in between), the same builder cell is
appended twice, so both output positions alias one sample whose twelve
decoded fields are those of the *second* data line — the first line's
decode is overwritten.  The two data lines are given by their
classification (`parseLine u di = dataStep u capsi` for every state,
classification being state-independent); the conclusion exhibits the
double append of the same cell index and the final cell value as a
`decodeFields caps2` record (whose twelve data fields depend only on
`caps2`), with some bearing. -/
theorem builder_aliasing_overwrite (s : ParseState) (ms : List Str)
    {d1 d2 : Str} {caps1 caps2 : List Str}
    (hd1 : ∀ u : ParseState, parseLine u d1 = dataStep u caps1)
    (hd2 : ∀ u : ParseState, parseLine u d2 = dataStep u caps2)
    (hms : ∀ m ∈ ms, m ≠ [] ∧ findMatch r3Toks m = none) :
    (runLines s (d1 :: (ms ++ [d2]))).out = s.out ++ [s.cur, s.cur] ∧
    ∃ (d : MetrologySample) (b : ℝ),
      (runLines s (d1 :: (ms ++ [d2]))).cells s.cur =
        { decodeFields caps2 d with Bearing := b } := by
  rw [runLines_cons, hd1]
  have hfold : runLines (dataStep s caps1) (ms ++ [d2]) =
      parseLine (runLines (dataStep s caps1) ms) d2 := by
    show List.foldl parseLine _ (ms ++ [d2]) = _
    rw [List.foldl_append]
    rfl
  rw [hfold, hd2]
  obtain ⟨ho, hc⟩ := runLines_no_append hms (dataStep s caps1)
  set u := runLines (dataStep s caps1) ms with hu
  constructor
  · rw [dataStep_out u caps2, ho, hc, dataStep_out s caps1, dataStep_cur]
    simp
  · obtain ⟨b, hb⟩ := dataStep_decoded u caps2
    refine ⟨u.cells u.cur, b, ?_⟩
    have hcs : u.cur = s.cur := hc.trans (dataStep_cur s caps1)
    rw [← hcs]
    exact hb

/-- Closed witness for C10: two concrete data lines with no blank line
between them; the parse appends builder cell 0 twice and the shared cell
ends with the second line's decode. -/
theorem builder_aliasing_overwrite_witness :
    (runLines initState
      (mkDataLine "2.8".toList "141.87".toList "110".toList "-0.7".toList
        "1.000".toList "-69.9191".toList "46.8451".toList "19".toList
        "31.42".toList "11.80".toList "1.00".toList "0.70".toList ::
        ([] ++ [mkDataLine "4.0".toList "100.00".toList "200".toList
          "0.3".toList "2.000".toList "-69.9200".toList "46.8500".toList
          "17".toList "35.00".toList "12.50".toList "2.00".toList
          "1.10".toList]))).out =
      initState.out ++ [initState.cur, initState.cur] ∧
    ∃ (d : MetrologySample) (b : ℝ),
      (runLines initState
        (mkDataLine "2.8".toList "141.87".toList "110".toList "-0.7".toList
          "1.000".toList "-69.9191".toList "46.8451".toList "19".toList
          "31.42".toList "11.80".toList "1.00".toList "0.70".toList ::
          ([] ++ [mkDataLine "4.0".toList "100.00".toList "200".toList
            "0.3".toList "2.000".toList "-69.9200".toList "46.8500".toList
            "17".toList "35.00".toList "12.50".toList "2.00".toList
            "1.10".toList]))).cells initState.cur =
        { decodeFields ["4.0".toList, "100.00".toList, "200".toList,
            "0.3".toList, "2.000".toList, "-69.9200".toList,
            "46.8500".toList, "17".toList, "35.00".toList, "12.50".toList,
            "2.00".toList, "1.10".toList] d with Bearing := b } :=
  builder_aliasing_overwrite initState []
    (fun u => parseLine_dataLine u (by decide) (by decide) (by decide)
      (by decide) (by decide) (by decide) (by decide) (by decide) (by decide)
      (by decide) (by decide) (by decide))
    (fun u => parseLine_dataLine u (by decide) (by decide) (by decide)
      (by decide) (by decide) (by decide) (by decide) (by decide) (by decide)
      (by decide) (by decide) (by decide))
    (by simp)

/-- The bearing formula degenerates to `atan2 0 0 = 0` on identical
points. -/
lemma BearingTo_self (p : Point) : BearingTo p p = 0 := by
  unfold BearingTo
  dsimp only
  have hd : (p.lng - p.lng) * Real.pi / 180 = 0 := by
    rw [sub_self, zero_mul, zero_div]
  rw [hd]
  have hy : Real.sin 0 * Real.cos (p.lat * Real.pi / 180) = 0 := by
    rw [Real.sin_zero, zero_mul]
  have hx : Real.cos (p.lat * Real.pi / 180) *
      Real.sin (p.lat * Real.pi / 180) -
      Real.sin (p.lat * Real.pi / 180) *
      Real.cos (p.lat * Real.pi / 180) * Real.cos 0 = 0 := by
    rw [Real.cos_zero]
    ring
  rw [hy, hx]
  have h0 : atan2 0 0 = 0 := by
    unfold atan2
    simp
  rw [h0, zero_mul, zero_div]

/-- Due east along the equator: bearing 90 degrees. -/
lemma BearingTo_equator_east : BearingTo ⟨0, 0⟩ ⟨0, 90⟩ = 90 := by
  have hπ := Real.pi_pos
  unfold BearingTo
  dsimp only
  have hd : ((90 : ℝ) - 0) * Real.pi / 180 = Real.pi / 2 := by ring
  have hl : (0 : ℝ) * Real.pi / 180 = 0 := by ring
  rw [hd, hl]
  rw [Real.sin_pi_div_two, Real.cos_zero, Real.sin_zero, Real.cos_pi_div_two]
  have hy : (1 : ℝ) * 1 = 1 := one_mul 1
  have hx : (1 : ℝ) * 0 - 0 * 1 * 0 = 0 := by ring
  rw [hy, hx]
  have ha : atan2 1 0 = Real.pi / 2 := by
    unfold atan2
    rw [if_neg (lt_irrefl 0), if_neg (lt_irrefl 0), if_pos one_pos]
  rw [ha]
  field_simp
  ring

/-- Due west along the equator: bearing minus 90 degrees. -/
lemma BearingTo_equator_west : BearingTo ⟨0, 0⟩ ⟨0, -90⟩ = -90 := by
  have hπ := Real.pi_pos
  unfold BearingTo
  dsimp only
  have hd : ((-90 : ℝ) - 0) * Real.pi / 180 = -(Real.pi / 2) := by ring
  have hl : (0 : ℝ) * Real.pi / 180 = 0 := by ring
  rw [hd, hl]
  rw [Real.sin_neg, Real.cos_neg, Real.sin_pi_div_two, Real.cos_zero,
    Real.sin_zero, Real.cos_pi_div_two]
  have hy : -(1 : ℝ) * 1 = -1 := by ring
  have hx : (1 : ℝ) * 0 - 0 * 1 * 0 = 0 := by ring
  rw [hy, hx]
  have ha : atan2 (-1) 0 = -(Real.pi / 2) := by
    unfold atan2
    rw [if_neg (lt_irrefl 0), if_neg (lt_irrefl 0),
      if_neg (by norm_num : ¬(0 : ℝ) < -1), if_pos (by norm_num)]
  rw [ha]
  field_simp
  ring

lemma decimalVal?_eval {s a b : Str} (hsplit : splitOnChar '.' s = [a, b])
    (hne : (a ++ b) ≠ []) (ha : a.all goDigit = true)
    (hb : b.all goDigit = true) :
    decimalVal? s =
      some ((digitVal a : ℚ) + (digitVal b : ℚ) / 10 ^ b.length) := by
  unfold decimalVal?
  rw [hsplit]
  dsimp only
  rw [if_pos ⟨hne, ha, hb⟩]

lemma goParseFloat_unsigned {c : Char} {rest : Str} (hc1 : c ≠ '-')
    (hc2 : c ≠ '+') {v : ℚ} (h : decimalVal? (c :: rest) = some v) :
    goParseFloat (c :: rest) = v := by
  unfold goParseFloat
  dsimp only
  rw [if_neg hc1, if_neg hc2, h]

lemma goParseFloat_negative {rest : Str} {v : ℚ}
    (h : decimalVal? rest = some v) :
    goParseFloat ('-' :: rest) = -v := by
  unfold goParseFloat
  dsimp only
  rw [if_pos rfl, h]

lemma goParseFloat_zero_str : goParseFloat "0.0".toList = 0 := by
  rw [show ("0.0".toList) = '0' :: ['.', '0'] from rfl]
  rw [goParseFloat_unsigned (by decide) (by decide)
    (decimalVal?_eval (a := ['0']) (b := ['0']) (by decide) (by decide)
      (by decide) (by decide))]
  norm_num [show digitVal ['0'] = 0 from by decide]

lemma goParseFloat_ninety_str : goParseFloat "90.0".toList = 90 := by
  rw [show ("90.0".toList) = '9' :: ['0', '.', '0'] from rfl]
  rw [goParseFloat_unsigned (by decide) (by decide)
    (decimalVal?_eval (a := ['9', '0']) (b := ['0']) (by decide) (by decide)
      (by decide) (by decide))]
  norm_num [show digitVal ['9', '0'] = 90 from by decide,
    show digitVal ['0'] = 0 from by decide]

lemma goParseFloat_neg_ninety_str : goParseFloat "-90.0".toList = -90 := by
  rw [show ("-90.0".toList) = '-' :: ['9', '0', '.', '0'] from rfl,
    goParseFloat_negative
      (decimalVal?_eval (a := ['9', '0']) (b := ['0']) (by decide) (by decide)
        (by decide) (by decide))]
  norm_num [show digitVal ['9', '0'] = 90 from by decide,
    show digitVal ['0'] = 0 from by decide]

/-- Data step before two samples exist: plain decode, no bearing. -/
lemma dataStep_eq_of_no_bearing {s : ParseState} (caps : List Str)
    (h : ¬ 1 < s.out.length) :
    dataStep s caps =
      { cells := Function.update s.cells s.cur
          (decodeFields caps (s.cells s.cur)),
        cur := s.cur, out := s.out ++ [s.cur] } := by
  unfold dataStep
  dsimp only
  rw [if_neg h]

/-- Data step once at least two samples exist: decode, then the 0/180
bearing rule against the previously appended sample, read back through
the pointer slice after the decode. -/
lemma dataStep_eq_of_bearing {s : ParseState} (caps : List Str)
    (h : 1 < s.out.length) :
    dataStep s caps =
      { cells := Function.update s.cells s.cur
          (let n0 := decodeFields caps (s.cells s.cur)
           let prev := Function.update s.cells s.cur n0
             (s.out.getD (s.out.length - 1) 0)
           let bearing := BearingTo
             ⟨(prev.Latitude : ℝ), (prev.Longitude : ℝ)⟩
             ⟨(n0.Latitude : ℝ), (n0.Longitude : ℝ)⟩
           if bearing = 0 ∨ bearing = 180 then
             { n0 with Bearing := prev.Bearing }
           else { n0 with Bearing := bearing }),
        cur := s.cur, out := s.out ++ [s.cur] } := by
  unfold dataStep
  dsimp only
  rw [if_pos h]

lemma getD_append_of_lt {α : Type} (l l' : List α) (d : α) (n : ℕ)
    (h : n < l.length) : (l ++ l').getD n d = l.getD n d := by
  induction l generalizing n with
  | nil => simp at h
  | cons a as ih =>
      cases n with
      | zero => rfl
      | succ m =>
          show (as ++ l').getD m d = as.getD m d
          exact ih m (by simpa using h)

lemma getD_append_self_len {α : Type} (l : List α) (x d : α) :
    (l ++ [x]).getD l.length d = x := by
  induction l with
  | nil => rfl
  | cons a as ih => exact ih

lemma getD_mem_of_lt {α : Type} (l : List α) (n : ℕ) (d : α)
    (h : n < l.length) : l.getD n d ∈ l := by
  induction l generalizing n with
  | nil => simp at h
  | cons a as ih =>
      cases n with
      | zero => exact List.mem_cons_self a as
      | succ m =>
          exact List.mem_cons_of_mem a (ih m (by simpa using h))

lemma getD_map_of_lt {α β : Type} (f : α → β) (l : List α) (n : ℕ)
    (da : α) (db : β) (h : n < l.length) :
    (l.map f).getD n db = f (l.getD n da) := by
  induction l generalizing n with
  | nil => simp at h
  | cons a as ih =>
      cases n with
      | zero => rfl
      | succ m => exact ih m (by simpa using h)

/-- Invariant carrying the first-two-samples-have-bearing-zero property
through the line loop: the appended indices are nondecreasing and bounded
by the current builder, no cell holds a nonzero bearing while at most two
samples exist, and the cells of the first two appended positions always
hold bearing zero. -/
def BearInv (s : ParseState) : Prop :=
  (∀ i j : ℕ, i ≤ j → j < s.out.length →
    s.out.getD i 0 ≤ s.out.getD j 0) ∧
  (∀ j ∈ s.out, j ≤ s.cur) ∧
  (s.out.length ≤ 2 → ∀ j, (s.cells j).Bearing = 0) ∧
  (∀ i : ℕ, i < 2 → i < s.out.length →
    (s.cells (s.out.getD i 0)).Bearing = 0)

lemma bearInv_initState : BearInv initState := by
  refine ⟨?_, ?_, ?_, ?_⟩
  · intro i j _ hj
    simp [initState] at hj
  · intro j hj
    simp [initState] at hj
  · intro _ j
    rfl
  · intro i _ hi
    simp [initState] at hi

/-- A builder write that does not touch the bearing preserves every
bearing in the heap. -/
lemma bearing_update_preserved (cells : ℕ → MetrologySample) (cur : ℕ)
    (n : MetrologySample) (hn : n.Bearing = (cells cur).Bearing) (j : ℕ) :
    ((Function.update cells cur n) j).Bearing = (cells j).Bearing := by
  rcases eq_or_ne j cur with he | he
  · rw [he, Function.update_same, hn]
  · rw [Function.update_noteq he]

lemma bearInv_parseLine (s : ParseState) (l : Str) (h : BearInv s) :
    BearInv (parseLine s l) := by
  obtain ⟨hsort, hbnd, hall, hfirst⟩ := h
  rcases parseLine_cases s l with hc | ⟨v, hc⟩ | ⟨t1, t2, hc⟩ | ⟨caps, hc⟩ | hc
    <;> rw [hc]
  · exact ⟨hsort, fun j hj => (hbnd j hj).trans (Nat.le_succ _), hall, hfirst⟩
  · refine ⟨hsort, hbnd, fun hlen j => ?_, fun i hi hil => ?_⟩
    · show ((Function.update s.cells s.cur
          { s.cells s.cur with ID := v }) j).Bearing = 0
      rw [bearing_update_preserved s.cells s.cur
        { s.cells s.cur with ID := v } rfl j]
      exact hall hlen j
    · show ((Function.update s.cells s.cur
          { s.cells s.cur with ID := v }) (s.out.getD i 0)).Bearing = 0
      rw [bearing_update_preserved s.cells s.cur
        { s.cells s.cur with ID := v } rfl _]
      exact hfirst i hi hil
  · refine ⟨hsort, hbnd, fun hlen j => ?_, fun i hi hil => ?_⟩
    · show ((Function.update s.cells s.cur
          { s.cells s.cur with Start := t1, End := t2 }) j).Bearing = 0
      rw [bearing_update_preserved s.cells s.cur
        { s.cells s.cur with Start := t1, End := t2 } rfl j]
      exact hall hlen j
    · show ((Function.update s.cells s.cur
          { s.cells s.cur with Start := t1, End := t2 })
          (s.out.getD i 0)).Bearing = 0
      rw [bearing_update_preserved s.cells s.cur
        { s.cells s.cur with Start := t1, End := t2 } rfl _]
      exact hfirst i hi hil
  · -- the data branch
    have hsort2 : ∀ i j : ℕ, i ≤ j → j < (s.out ++ [s.cur]).length →
        (s.out ++ [s.cur]).getD i 0 ≤ (s.out ++ [s.cur]).getD j 0 := by
      intro i j hij hj
      rw [List.length_append, List.length_singleton] at hj
      rcases Nat.lt_or_ge j s.out.length with hjl | hjl
      · rw [getD_append_of_lt _ _ _ _ hjl,
          getD_append_of_lt _ _ _ _ (lt_of_le_of_lt hij hjl)]
        exact hsort i j hij hjl
      · have hjeq : j = s.out.length := by omega
        subst hjeq
        rw [getD_append_self_len]
        rcases Nat.lt_or_ge i s.out.length with hil | hil
        · rw [getD_append_of_lt _ _ _ _ hil]
          exact hbnd _ (getD_mem_of_lt s.out i 0 hil)
        · have : i = s.out.length := by omega
          subst this
          rw [getD_append_self_len]
      
    have hbnd2 : ∀ j ∈ s.out ++ [s.cur], j ≤ (dataStep s caps).cur := by
      intro j hj
      rw [dataStep_cur]
      rcases List.mem_append.mp hj with hj | hj
      · exact hbnd j hj
      · rw [List.mem_singleton.mp hj]
    by_cases hlen : 1 < s.out.length
    · rw [dataStep_eq_of_bearing caps hlen]
      refine ⟨hsort2, by simpa using hbnd2, fun hlen2 _ => ?_, ?_⟩
      · exfalso
        rw [List.length_append, List.length_singleton] at hlen2
        omega
      · intro i hi hil
        rw [List.length_append, List.length_singleton] at hil
        have hiold : i < s.out.length := by omega
        rw [getD_append_of_lt _ _ _ _ hiold]
        dsimp only
        rcases eq_or_ne (s.out.getD i 0) s.cur with he | he
        · -- the first-two position aliases the current builder
          have hprev : s.out.getD (s.out.length - 1) 0 = s.cur := by
            have h1 : s.out.getD i 0 ≤ s.out.getD (s.out.length - 1) 0 :=
              hsort i (s.out.length - 1) (by omega) (by omega)
            have h2 : s.out.getD (s.out.length - 1) 0 ≤ s.cur :=
              hbnd _ (getD_mem_of_lt s.out _ 0 (by omega))
            omega
          rw [he, Function.update_same]
          rw [hprev, Function.update_same]
          rw [if_pos (Or.inl (BearingTo_self _))]
          show (decodeFields caps (s.cells s.cur)).Bearing = 0
          show (s.cells s.cur).Bearing = 0
          rw [← he]
          exact hfirst i hi hiold
        · rw [Function.update_noteq he]
          exact hfirst i hi hiold
    · rw [dataStep_eq_of_no_bearing caps hlen]
      have hall2 : ∀ j, ((Function.update s.cells s.cur
          (decodeFields caps (s.cells s.cur))) j).Bearing = 0 := by
        intro j
        rw [bearing_update_preserved s.cells s.cur
          (decodeFields caps (s.cells s.cur)) rfl j]
        exact hall (by omega) j
      refine ⟨hsort2, by simpa using hbnd2, fun _ j => hall2 j,
        fun i _ _ => hall2 _⟩
  · exact ⟨hsort, hbnd, hall, hfirst⟩

lemma bearInv_runLines (ls : List Str) (s : ParseState) (h : BearInv s) :
    BearInv (runLines s ls) := by
  induction ls generalizing s with
  | nil => exact h
  | cons l ls ih => exact ih (parseLine s l) (bearInv_parseLine s l h)

lemma splitOnChar_cons_self (sep : Char) (rest : Str) :
    splitOnChar sep (sep :: rest) = [] :: splitOnChar sep rest := by
  rw [splitOnChar, if_pos rfl]

/-- For every successful parse, any of the first two entries of the
output has bearing zero: the bearing branch only runs once two samples
exist, and a later overwrite of a shared cell can only land on the last
appended position, never on the first two. -/
lemma parseSRT_first_two_zero (b : Str) (out : List MetrologySample)
    (h : parseSRT b = some out) (i : ℕ) (hi2 : i < 2)
    (hil : i < out.length) : (out.getD i default).Bearing = 0 := by
  by_cases hb : 3 ≤ b.length
  · rw [parseSRT, if_pos hb] at h
    have he := Option.some.inj h
    obtain ⟨-, -, -, hfirst⟩ :=
      bearInv_runLines (splitLines (b.drop 3)) initState bearInv_initState
    rw [← he] at hil ⊢
    rw [List.length_map] at hil
    rw [getD_map_of_lt (runLines initState (splitLines (b.drop 3))).cells
      (runLines initState (splitLines (b.drop 3))).out i 0 default hil]
    exact hfirst i hi2 hil
  · rw [parseSRT, if_neg hb] at h
    exact absurd h (by simp)

/-- The 0/180 reuse rule at the step where it is applied: once more than
one sample has been appended, the bearing stored by a data step is the
one computed from the previously appended cell — read back through the
pointer slice after the twelve-field decode — unless that value is
exactly 0 or 180, in which case the previous cell's bearing is kept. -/
lemma dataStep_bearing_rule (s : ParseState) (caps : List Str)
    (h : 1 < s.out.length) :
    ((dataStep s caps).cells s.cur).Bearing =
      (let n0 := decodeFields caps (s.cells s.cur)
       let prev := Function.update s.cells s.cur n0
         (s.out.getD (s.out.length - 1) 0)
       let bearing := BearingTo
         ⟨(prev.Latitude : ℝ), (prev.Longitude : ℝ)⟩
         ⟨(n0.Latitude : ℝ), (n0.Longitude : ℝ)⟩
       if bearing = 0 ∨ bearing = 180 then prev.Bearing else bearing) := by
  rw [dataStep_eq_of_bearing caps h]
  show (Function.update s.cells s.cur _ s.cur).Bearing = _
  rw [Function.update_same]
  dsimp only
  rw [apply_ite MetrologySample.Bearing]

/-- The field string `"0.0"` of the aliasing counterexample. -/
def cexZ : Str := "0.0".toList

/-- The longitude string `"90.0"` of the third data line. -/
def cexE : Str := "90.0".toList

/-- The longitude string `"-90.0"` of the fourth data line. -/
def cexW : Str := "-90.0".toList

/-- The twelve captures of a counterexample data line: every field is
`"0.0"` except the longitude capture. -/
def cexCaps (lon : Str) : List Str :=
  [cexZ, cexZ, cexZ, cexZ, cexZ, lon, cexZ, cexZ, cexZ, cexZ, cexZ, cexZ]

/-- A counterexample data line with the given longitude field. -/
def cexDataLine (lon : Str) : Str :=
  mkDataLine cexZ cexZ cexZ cexZ cexZ lon cexZ cexZ cexZ cexZ cexZ cexZ

/-- The decoded sample of a `"0.0"`-longitude line over a zero builder. -/
def cexNA : MetrologySample := decodeFields (cexCaps cexZ) default

/-- The decoded sample of the `"90.0"`-longitude line over a zero
builder, before its bearing is set. -/
def cexNB : MetrologySample := decodeFields (cexCaps cexE) default

/-- The decoded sample of the `"-90.0"`-longitude line over the
overwritten third builder cell, whose bearing 90 it inherits. -/
def cexNC : MetrologySample :=
  decodeFields (cexCaps cexW) { cexNB with Bearing := 90 }

/-- The heap after the first data line. -/
def cexC1 : ℕ → MetrologySample := Function.update (fun _ => default) 0 cexNA

/-- The heap after the second data line. -/
def cexC2 : ℕ → MetrologySample := Function.update cexC1 1 cexNA

/-- The heap after the third data line, which computes bearing 90. -/
def cexC3 : ℕ → MetrologySample :=
  Function.update cexC2 2 { cexNB with Bearing := 90 }

/-- The heap after the fourth data line, which overwrites cell 2. -/
def cexC4 : ℕ → MetrologySample := Function.update cexC3 2 cexNC

/-- The counterexample input: the three marker bytes, then two `(0, 0)`
blocks separated by blank lines, then a `(0, 90)` data line immediately
followed — no blank line, so the builder cell is shared — by a
`(0, -90)` data line. -/
def cexInput : Str :=
  ['x', 'y', 'z'] ++ (cexDataLine cexZ ++ ('\n' :: '\n' ::
    (cexDataLine cexZ ++ ('\n' :: '\n' ::
      (cexDataLine cexE ++ ('\n' :: cexDataLine cexW))))))

lemma cexNA_lat : cexNA.Latitude = 0 := goParseFloat_zero_str

lemma cexNA_lon : cexNA.Longitude = 0 := goParseFloat_zero_str

lemma cexNB_lat : cexNB.Latitude = 0 := goParseFloat_zero_str

lemma cexNB_lon : cexNB.Longitude = 90 := goParseFloat_ninety_str

lemma cexNC_lat : cexNC.Latitude = 0 := goParseFloat_zero_str

lemma cexNC_lon : cexNC.Longitude = -90 := goParseFloat_neg_ninety_str

lemma cexNC_bearing : cexNC.Bearing = 90 := rfl

/-- The bearing from the second sample `(0, 0)` to the freshly decoded
`(0, 90)` is 90 degrees, hence not suppressed. -/
lemma cexBearingAB :
    BearingTo ⟨(cexNA.Latitude : ℝ), (cexNA.Longitude : ℝ)⟩
      ⟨(cexNB.Latitude : ℝ), (cexNB.Longitude : ℝ)⟩ = 90 := by
  rw [cexNA_lat, cexNA_lon, cexNB_lat, cexNB_lon]
  push_cast
  exact BearingTo_equator_east

lemma cexStep1 : parseLine initState (cexDataLine cexZ) =
    ⟨cexC1, 0, [0]⟩ := by
  have hzN : cexZ.all clsNum = true := by decide
  have hzS : cexZ.all clsNumSigned = true := by decide
  unfold cexDataLine
  rw [parseLine_dataLine initState hzN hzN hzN hzS hzN hzS hzS hzS hzS hzS
    hzS hzS]
  rw [@dataStep_eq_of_no_bearing initState
    [cexZ, cexZ, cexZ, cexZ, cexZ, cexZ, cexZ, cexZ, cexZ, cexZ, cexZ, cexZ]
    (by decide)]
  rfl

lemma cexStep2 : parseLine ⟨cexC1, 0, [0]⟩ [] = ⟨cexC1, 1, [0]⟩ :=
  parseLine_blank _

lemma cexStep3 : parseLine ⟨cexC1, 1, [0]⟩ (cexDataLine cexZ) =
    ⟨cexC2, 1, [0, 1]⟩ := by
  have hzN : cexZ.all clsNum = true := by decide
  have hzS : cexZ.all clsNumSigned = true := by decide
  unfold cexDataLine
  rw [parseLine_dataLine _ hzN hzN hzN hzS hzN hzS hzS hzS hzS hzS hzS hzS]
  rw [@dataStep_eq_of_no_bearing ⟨cexC1, 1, [0]⟩
    [cexZ, cexZ, cexZ, cexZ, cexZ, cexZ, cexZ, cexZ, cexZ, cexZ, cexZ, cexZ]
    (by decide)]
  rfl

lemma cexStep4 : parseLine ⟨cexC2, 1, [0, 1]⟩ [] = ⟨cexC2, 2, [0, 1]⟩ :=
  parseLine_blank _

lemma cexStep5 : parseLine ⟨cexC2, 2, [0, 1]⟩ (cexDataLine cexE) =
    ⟨cexC3, 2, [0, 1, 2]⟩ := by
  have hzN : cexZ.all clsNum = true := by decide
  have hzS : cexZ.all clsNumSigned = true := by decide
  have heS : cexE.all clsNumSigned = true := by decide
  unfold cexDataLine
  rw [parseLine_dataLine _ hzN hzN hzN hzS hzN heS hzS hzS hzS hzS hzS hzS]
  rw [@dataStep_eq_of_bearing ⟨cexC2, 2, [0, 1]⟩
    [cexZ, cexZ, cexZ, cexZ, cexZ, cexE, cexZ, cexZ, cexZ, cexZ, cexZ, cexZ]
    (by decide)]
  show (⟨Function.update cexC2 2
      (if BearingTo ⟨(cexNA.Latitude : ℝ), (cexNA.Longitude : ℝ)⟩
          ⟨(cexNB.Latitude : ℝ), (cexNB.Longitude : ℝ)⟩ = 0 ∨
          BearingTo ⟨(cexNA.Latitude : ℝ), (cexNA.Longitude : ℝ)⟩
            ⟨(cexNB.Latitude : ℝ), (cexNB.Longitude : ℝ)⟩ = 180 then
        { cexNB with Bearing := cexNA.Bearing }
      else
        { cexNB with Bearing :=
            (BearingTo ⟨(cexNA.Latitude : ℝ), (cexNA.Longitude : ℝ)⟩
              ⟨(cexNB.Latitude : ℝ), (cexNB.Longitude : ℝ)⟩) }),
    2, [0, 1, 2]⟩ : ParseState) = ⟨cexC3, 2, [0, 1, 2]⟩
  simp only [cexBearingAB]
  rw [if_neg (by norm_num)]
  rfl

lemma cexStep6 : parseLine ⟨cexC3, 2, [0, 1, 2]⟩ (cexDataLine cexW) =
    ⟨cexC4, 2, [0, 1, 2, 2]⟩ := by
  have hzN : cexZ.all clsNum = true := by decide
  have hzS : cexZ.all clsNumSigned = true := by decide
  have hwS : cexW.all clsNumSigned = true := by decide
  unfold cexDataLine
  rw [parseLine_dataLine _ hzN hzN hzN hzS hzN hwS hzS hzS hzS hzS hzS hzS]
  rw [@dataStep_eq_of_bearing ⟨cexC3, 2, [0, 1, 2]⟩
    [cexZ, cexZ, cexZ, cexZ, cexZ, cexW, cexZ, cexZ, cexZ, cexZ, cexZ, cexZ]
    (by decide)]
  show (⟨Function.update cexC3 2
      (if BearingTo ⟨(cexNC.Latitude : ℝ), (cexNC.Longitude : ℝ)⟩
          ⟨(cexNC.Latitude : ℝ), (cexNC.Longitude : ℝ)⟩ = 0 ∨
          BearingTo ⟨(cexNC.Latitude : ℝ), (cexNC.Longitude : ℝ)⟩
            ⟨(cexNC.Latitude : ℝ), (cexNC.Longitude : ℝ)⟩ = 180 then
        { cexNC with Bearing := cexNC.Bearing }
      else
        { cexNC with Bearing :=
            (BearingTo ⟨(cexNC.Latitude : ℝ), (cexNC.Longitude : ℝ)⟩
              ⟨(cexNC.Latitude : ℝ), (cexNC.Longitude : ℝ)⟩) }),
    2, [0, 1, 2, 2]⟩ : ParseState) = ⟨cexC4, 2, [0, 1, 2, 2]⟩
  rw [if_pos (Or.inl
    (BearingTo_self ⟨(cexNC.Latitude : ℝ), (cexNC.Longitude : ℝ)⟩))]
  rfl

lemma cexRun :
    runLines initState [cexDataLine cexZ, [], cexDataLine cexZ, [],
      cexDataLine cexE, cexDataLine cexW] = ⟨cexC4, 2, [0, 1, 2, 2]⟩ := by
  rw [runLines_cons, cexStep1, runLines_cons, cexStep2, runLines_cons,
    cexStep3, runLines_cons, cexStep4, runLines_cons, cexStep5,
    runLines_cons, cexStep6, runLines_nil]

/-- The full counterexample parse: four samples come out, the last two
sharing the overwritten third cell. -/
lemma cexParse :
    parseSRT cexInput = some [cexNA, cexNA, cexNC, cexNC] := by
  have hzN : cexZ.all clsNum = true := by decide
  have hzS : cexZ.all clsNumSigned = true := by decide
  have heS : cexE.all clsNumSigned = true := by decide
  have hwS : cexW.all clsNumSigned = true := by decide
  have hndZ : '\n' ∉ cexDataLine cexZ := by
    unfold cexDataLine
    exact newline_not_mem_mkDataLine hzN hzN hzN hzS hzN hzS hzS hzS hzS
      hzS hzS hzS
  have hndE : '\n' ∉ cexDataLine cexE := by
    unfold cexDataLine
    exact newline_not_mem_mkDataLine hzN hzN hzN hzS hzN heS hzS hzS hzS
      hzS hzS hzS
  have hndW : '\n' ∉ cexDataLine cexW := by
    unfold cexDataLine
    exact newline_not_mem_mkDataLine hzN hzN hzN hzS hzN hwS hzS hzS hzS
      hzS hzS hzS
  unfold cexInput
  rw [parseSRT, if_pos (by simp)]
  rw [show (3 : ℕ) = (['x', 'y', 'z'] : Str).length from rfl,
    List.drop_left]
  simp only [splitLines]
  rw [splitOnChar_append_cons hndZ, splitOnChar_cons_self,
    splitOnChar_append_cons hndZ, splitOnChar_cons_self,
    splitOnChar_append_cons hndE, splitOnChar_not_mem hndW]
  rw [cexRun]
  rfl

/-- C3 (amended): (a) for every successful parse, each of the first two
output samples has bearing 0, and (b) the 0/180 suppression rule holds at
the moment a data line is emitted, against the previously appended cell
as the pointer slice then reads it: once more than one sample exists, the
stored bearing is the one computed from that cell's coordinates to the
freshly decoded ones, except that a computed value of exactly 0 or 180 —
in particular for identical coordinates — keeps the previous cell's
bearing.  The original final-output reading of the rule is refuted by
`bearing_rule_cex`: a later data line without an intervening blank line
overwrites the shared cell, so the final output's coordinates no longer
justify the bearing stored at emission time. -/
theorem bearing_rule_amended :
    (∀ b out, parseSRT b = some out → ∀ i : ℕ, i < 2 → i < out.length →
      (out.getD i default).Bearing = 0) ∧
    (∀ s caps, 1 < s.out.length →
      ((dataStep s caps).cells s.cur).Bearing =
        (let n0 := decodeFields caps (s.cells s.cur)
         let prev := Function.update s.cells s.cur n0
           (s.out.getD (s.out.length - 1) 0)
         let bearing := BearingTo
           ⟨(prev.Latitude : ℝ), (prev.Longitude : ℝ)⟩
           ⟨(n0.Latitude : ℝ), (n0.Longitude : ℝ)⟩
         if bearing = 0 ∨ bearing = 180 then prev.Bearing else bearing)) :=
  ⟨fun b out h i hi2 hil => parseSRT_first_two_zero b out h i hi2 hil,
   fun s caps h => dataStep_bearing_rule s caps h⟩

/-- Closed witness for the amended C3: the counterexample parse succeeds
and its first sample indeed has bearing 0, and on the concrete state of
its fifth line — two samples appended, builder at cell 2 — the stored
bearing is the computed 90 degrees, not suppressed. -/
theorem bearing_rule_amended_witness :
    (parseSRT cexInput = some [cexNA, cexNA, cexNC, cexNC] ∧
      (0 : ℕ) < 2 ∧
      (0 : ℕ) < ([cexNA, cexNA, cexNC, cexNC] :
        List MetrologySample).length ∧
      (([cexNA, cexNA, cexNC, cexNC] :
        List MetrologySample).getD 0 default).Bearing = 0) ∧
    (1 < (([0, 1] : List ℕ)).length ∧
      ((dataStep ⟨cexC2, 2, [0, 1]⟩ (cexCaps cexE)).cells 2).Bearing
        = 90) := by
  constructor
  · exact ⟨cexParse, by decide, by decide,
      bearing_rule_amended.1 cexInput [cexNA, cexNA, cexNC, cexNC]
        cexParse 0 (by decide) (by decide)⟩
  · refine ⟨by decide, ?_⟩
    have h := bearing_rule_amended.2 ⟨cexC2, 2, [0, 1]⟩ (cexCaps cexE)
      (by decide)
    rw [h]
    show (if BearingTo ⟨(cexNA.Latitude : ℝ), (cexNA.Longitude : ℝ)⟩
        ⟨(cexNB.Latitude : ℝ), (cexNB.Longitude : ℝ)⟩ = 0 ∨
        BearingTo ⟨(cexNA.Latitude : ℝ), (cexNA.Longitude : ℝ)⟩
          ⟨(cexNB.Latitude : ℝ), (cexNB.Longitude : ℝ)⟩ = 180 then
      cexNA.Bearing
    else
      BearingTo ⟨(cexNA.Latitude : ℝ), (cexNA.Longitude : ℝ)⟩
        ⟨(cexNB.Latitude : ℝ), (cexNB.Longitude : ℝ)⟩) = 90
    simp only [cexBearingAB]
    rw [if_neg (by norm_num)]

/-- C3 (counterexample to the final-output reading): on the
counterexample input the parse emits four samples; the bearing computed
from the final third sample's coordinates `(0, -90)` — as seen from the
second sample `(0, 0)` — is -90 degrees, which is neither 0 nor 180, yet
the third output sample's bearing is not that computed value: its cell
was overwritten by the next data line after the bearing 90 had been
stored. -/
theorem bearing_rule_cex :
    parseSRT cexInput = some [cexNA, cexNA, cexNC, cexNC] ∧
    BearingTo
      ⟨((([cexNA, cexNA, cexNC, cexNC] :
          List MetrologySample).getD 1 default).Latitude : ℝ),
       ((([cexNA, cexNA, cexNC, cexNC] :
          List MetrologySample).getD 1 default).Longitude : ℝ)⟩
      ⟨((([cexNA, cexNA, cexNC, cexNC] :
          List MetrologySample).getD 2 default).Latitude : ℝ),
       ((([cexNA, cexNA, cexNC, cexNC] :
          List MetrologySample).getD 2 default).Longitude : ℝ)⟩ = -90 ∧
    ¬ ((-90 : ℝ) = 0 ∨ (-90 : ℝ) = 180) ∧
    (([cexNA, cexNA, cexNC, cexNC] :
        List MetrologySample).getD 2 default).Bearing ≠ -90 := by
  refine ⟨cexParse, ?_, by norm_num, ?_⟩
  · show BearingTo ⟨(cexNA.Latitude : ℝ), (cexNA.Longitude : ℝ)⟩
      ⟨(cexNC.Latitude : ℝ), (cexNC.Longitude : ℝ)⟩ = -90
    rw [cexNA_lat, cexNA_lon, cexNC_lat, cexNC_lon]
    push_cast
    exact BearingTo_equator_west
  · show cexNC.Bearing ≠ -90
    rw [cexNC_bearing]
    norm_num
